import Mathlib

/-!
# mcp-time: a shallow embedding of the time tools and their contracts

The repository (`internal/handlers`, `internal/timeutil`, `internal/timezone`,
`internal/types`) is a thin layer over Go's standard library.  The embedding
therefore has two layers:

* `GoTime`, `GoStrings`, `GoFloat`: the parts of the Go standard library the repository
  calls (`time.Date`, `time.Time` accessors, `time.Parse` and `Time.Format` for the two
  layouts used, `time.LoadLocation`, `float64` arithmetic, `fmt` verbs `%+.1f`/`%+.2f`,
  `strings.TrimRight`), written after the library's own algorithms;
* `Types`, `Timezone`, `Timeutil`, `Handlers`: the repository's functions, line by line.

Conventions.

* Go strings are Lean strings; the parsers only inspect ASCII bytes, which a non-ASCII
  character never contains, so reading characters instead of bytes changes nothing.
* Go `int`/`int64` values of times and dates are Lean `Int`; the only place where machine
  width matters, the subtraction and the `float64` conversion in `FormatTimeDifference`,
  wraps to 64 bits explicitly.
* A `float64` is kept as an exact dyadic rational `±num / 2^sh`; conversion and division
  round to nearest, ties to even, on a 53-bit significand, as IEEE-754 prescribes.
* Everything the program reads from its host (zone database, clock, `time.Local`,
  `strconv.Quote` behind the `%q` verb) is a field of `World`.
* A Go `error` is `Option String`: `none` is `nil`, `some msg` carries `Error()`.
-/

namespace GoStrings

/-- Go `strings.TrimRight(s, cutset)` for a one-character cutset. -/
def trimRight (s : List Char) (c : Char) : List Char :=
  (s.reverse.dropWhile (fun x => x == c)).reverse

/-- Decimal digit character of a number below ten (`'0' + byte(u)`). -/
def digitChar (n : Nat) : Char :=
  match n with
  | 0 => '0' | 1 => '1' | 2 => '2' | 3 => '3' | 4 => '4'
  | 5 => '5' | 6 => '6' | 7 => '7' | 8 => '8' | _ => '9'

/-- Decimal digits of `n` pushed in front of `acc`, most significant first;
`fuel` bounds the number of digits produced. -/
def digitsAux : Nat → Nat → List Char → List Char
  | 0, _, acc => acc
  | fuel + 1, n, acc =>
    if n < 10 then digitChar n :: acc
    else digitsAux fuel (n / 10) (digitChar (n % 10) :: acc)

/-- Decimal representation of a natural number, no leading zeros (`"0"` for zero). -/
def decimal (n : Nat) : List Char := digitsAux (n + 1) n []

/-- Left padding with `'0'` up to `width` characters. -/
def zeroPad (width : Nat) (ds : List Char) : List Char :=
  List.replicate (width - ds.length) '0' ++ ds

/-- Go `time.appendInt(b, x, width)`: optional minus sign, then the decimal digits of
`|x|` zero-padded to `width`. -/
def appendInt (x : Int) (width : Nat) : List Char :=
  (if x < 0 then ['-'] else []) ++ zeroPad width (decimal x.natAbs)

end GoStrings

namespace GoTime

/-- Result of `(*Location).lookup(sec)`: the offset in force at `sec` (seconds east of
UTC) and the half-open range `[start, stop)` of instants over which that zone applies.
The abbreviation and the DST flag of the zone are never read by the repository. -/
structure ZoneSpan where
  offset : Int
  start : Int
  stop : Int
deriving DecidableEq

/-- Go `*time.Location`, seen through its `name` and its `lookup` method (which covers
both the transition table and the extension rule of a zone file). -/
structure Location where
  name : String
  lookup : Int → ZoneSpan

/-- Go `alpha`, the beginning of time for zone lookups. -/
def alphaSec : Int := -9223372036854775808

/-- Go `omega`, the end of time for zone lookups. -/
def omegaSec : Int := 9223372036854775807

/-- Go `time.UTC`. -/
def UTC : Location := ⟨"UTC", fun _ => ⟨0, alphaSec, omegaSec⟩⟩

/-- Go `time.Time`: Unix seconds, nanoseconds within the second, and the location used
to present it. -/
structure Time where
  sec : Int
  nsec : Int
  loc : Location

/-- Seconds from 0001-01-01T00:00:00Z to the Unix epoch (`unixToInternal`). -/
def unixToInternal : Int := 62135596800

/-- Go `isLeap`. -/
def isLeap (year : Int) : Bool :=
  year % 4 == 0 && (year % 100 != 0 || year % 400 == 0)

/-- Go `daysBefore[m]`: days in a non-leap year before month `m + 1`. -/
def daysBefore (m : Int) : Int :=
  match m.toNat with
  | 0 => 0 | 1 => 31 | 2 => 59 | 3 => 90 | 4 => 120 | 5 => 151 | 6 => 181
  | 7 => 212 | 8 => 243 | 9 => 273 | 10 => 304 | 11 => 334 | _ => 365

/-- Go `daysSinceEpoch`, counted from 0001-01-01 (Go counts from a year that lies a
whole number of 400-year cycles earlier, which shifts every day count by one constant). -/
def daysSinceEpoch (year : Int) : Int :=
  let y := year - 1
  let n := y / 400
  let y := y - 400 * n
  let d := 146097 * n
  let n := y / 100
  let y := y - 100 * n
  let d := d + 36524 * n
  let n := y / 4
  let y := y - 4 * n
  let d := d + 1461 * n
  d + 365 * y

/-- Go `norm(hi, lo, base)`: carries `lo` into `hi` so that `0 ≤ lo < base`. -/
def norm (hi lo base : Int) : Int × Int :=
  let (hi, lo) :=
    if lo < 0 then
      let n := (-lo - 1) / base + 1
      (hi - n, lo + n * base)
    else (hi, lo)
  if lo ≥ base then
    let n := lo / base
    (hi + n, lo - n * base)
  else (hi, lo)

/-- Go `time.Date`: the instant whose civil reading in `loc` is the given one.  The
zone offset is guessed at the civil reading taken as UTC and corrected once when the
guess falls outside the zone's range. -/
def Date (year month day hour min sec nsec : Int) (loc : Location) : Time :=
  let m := month - 1
  let (year, m) := norm year m 12
  let month := m + 1
  let (sec, nsec) := norm sec nsec 1000000000
  let (min, sec) := norm min sec 60
  let (hour, min) := norm hour min 60
  let (day, hour) := norm day hour 24
  let d := daysSinceEpoch year
  let d := d + daysBefore (month - 1)
  let d := if isLeap year && month ≥ 3 then d + 1 else d
  let d := d + (day - 1)
  let abs := d * 86400
  let abs := abs + (hour * 3600 + min * 60 + sec)
  let unix := abs - unixToInternal
  let z := loc.lookup unix
  let unix :=
    if z.offset ≠ 0 then
      let utc := unix - z.offset
      let offset :=
        if utc < z.start ∨ utc ≥ z.stop then (loc.lookup utc).offset else z.offset
      unix - offset
    else unix
  ⟨unix, nsec, loc⟩

/-- Year and zero-based day of the year of a day count from 0001-01-01
(the first half of Go `absDate`). -/
def absYear (d : Int) : Int × Int :=
  let n := d / 146097
  let y := 400 * n
  let d := d - 146097 * n
  let n := d / 36524
  let n := n - n / 4
  let y := y + 100 * n
  let d := d - 36524 * n
  let n := d / 1461
  let y := y + 4 * n
  let d := d - 1461 * n
  let n := d / 365
  let n := n - n / 4
  let y := y + n
  let d := d - 365 * n
  (y + 1, d)

/-- Month (1..12) and day of the month of a zero-based day of the year
(the second half of Go `absDate`). -/
def monthDay (year yday : Int) : Int × Int :=
  let day := yday
  if isLeap year && day == 31 + 29 - 1 then (2, 29)
  else
    let day := if isLeap year && day > 31 + 29 - 1 then day - 1 else day
    let month := day / 31
    let stop := daysBefore (month + 1)
    if day ≥ stop then (month + 2, day - stop + 1)
    else (month + 1, day - daysBefore month + 1)

/-- Go `absDate(abs, true)`: year, month, day of the local second count `abs`
(seconds since 0001-01-01T00:00:00 local). -/
def absDate (abs : Int) : Int × Int × Int :=
  let yd := absYear (abs / 86400)
  let md := monthDay yd.1 yd.2
  (yd.1, md.1, md.2)

/-- Go `(Time).Zone()`, offset part: seconds east of UTC in force at `t` in its location. -/
def Time.zoneOffset (t : Time) : Int := (t.loc.lookup t.sec).offset

/-- Go `(Time).abs()`: local seconds since 0001-01-01T00:00:00. -/
def Time.abs (t : Time) : Int := t.sec + t.zoneOffset + unixToInternal

/-- Go `(Time).Year()`. -/
def Time.Year (t : Time) : Int := (absDate t.abs).1

/-- Go `(Time).Month()`, as a number 1..12. -/
def Time.Month (t : Time) : Int := (absDate t.abs).2.1

/-- Go `(Time).Day()`. -/
def Time.Day (t : Time) : Int := (absDate t.abs).2.2

/-- Go `(Time).Hour()`. -/
def Time.Hour (t : Time) : Int := t.abs % 86400 / 3600

/-- Go `(Time).Minute()`. -/
def Time.Minute (t : Time) : Int := t.abs % 3600 / 60

/-- Go `(Time).Second()`. -/
def Time.Second (t : Time) : Int := t.abs % 60

/-- Go `(Time).Weekday()`, Sunday = 0; 0001-01-01 was a Monday. -/
def Time.Weekday (t : Time) : Int := (t.abs + 86400) % 604800 / 86400

/-- Go `(Time).In(loc)`: same instant, presented in `loc`. -/
def Time.In (t : Time) (loc : Location) : Time := { t with loc := loc }

/-- Go `(Weekday).String()`. -/
def weekdayString (d : Int) : String :=
  match d.toNat with
  | 0 => "Sunday" | 1 => "Monday" | 2 => "Tuesday" | 3 => "Wednesday"
  | 4 => "Thursday" | 5 => "Friday" | _ => "Saturday"

/-- Go `Time.Format` for the layout `"2006-01-02T15:04:05-07:00"`, on the fields it
reads from the instant: the layout chunks `2006 - 01 - 02 T 15 : 04 : 05 -07:00` in order.
The zone chunk prints the sign of the offset in whole minutes, then hours and minutes;
nanoseconds have no chunk. -/
def layoutISO (year month day hour min sec offset : Int) : List Char :=
  let zone := Int.tdiv offset 60
  let sign := if zone < 0 then '-' else '+'
  let zone := if zone < 0 then -zone else zone
  GoStrings.appendInt year 4 ++ ['-'] ++ GoStrings.appendInt month 2 ++ ['-']
    ++ GoStrings.appendInt day 2 ++ ['T'] ++ GoStrings.appendInt hour 2 ++ [':']
    ++ GoStrings.appendInt min 2 ++ [':'] ++ GoStrings.appendInt sec 2
    ++ [sign] ++ GoStrings.appendInt (zone / 60) 2 ++ [':']
    ++ GoStrings.appendInt (zone % 60) 2

/-- Go `t.Format("2006-01-02T15:04:05-07:00")`. -/
def formatISO (t : Time) : List Char :=
  layoutISO t.Year t.Month t.Day t.Hour t.Minute t.Second t.zoneOffset

/-- Go `isDigit(s, i)`. -/
def isDigit (s : List Char) (i : Nat) : Bool :=
  match s.get? i with
  | some c => decide ('0' ≤ c) && decide (c ≤ '9')
  | none => false

/-- Numeric value of a decimal digit character (`s[i] - '0'`). -/
def digitVal (c : Char) : Int := (c.toNat : Int) - 48

/-- Go `getnum(s, fixed)`: one or two leading digits (exactly two when `fixed`),
returning the number and the rest of the string. -/
def getnum (s : List Char) (fixed : Bool) : Option (Int × List Char) :=
  if !isDigit s 0 then none
  else if !isDigit s 1 then
    if fixed then none
    else
      match s with
      | c :: rest => some (digitVal c, rest)
      | [] => none
  else
    match s with
    | c0 :: c1 :: rest => some (digitVal c0 * 10 + digitVal c1, rest)
    | _ => none

/-- Go `time.Parse("15:04", value)`: hour chunk `15` (one or two digits, below 24), the
literal `:`, minute chunk `04` (exactly two digits, below 60), and no text left over.
The missing date fields default to January 1 of year 0, in UTC. -/
def parseClock (value : List Char) : Option Time :=
  match getnum value false with
  | none => none
  | some (hour, value) =>
    if hour < 0 ∨ 24 ≤ hour then none
    else
      match value with
      | ':' :: value =>
        match getnum value true with
        | none => none
        | some (min, value) =>
          if min < 0 ∨ 60 ≤ min then none
          else if value.length ≠ 0 then none
          else some (Date 0 1 1 hour min 0 0 UTC)
      | _ => none

/-- The last step of `time.Date`: from the civil reading taken as Unix seconds to the
Unix seconds of the instant, by the zone offset guessed at the reading and corrected once. -/
def zoneAdjust (loc : Location) (unix : Int) : Int :=
  let z := loc.lookup unix
  if z.offset ≠ 0 then
    let utc := unix - z.offset
    let offset :=
      if utc < z.start ∨ utc ≥ z.stop then (loc.lookup utc).offset else z.offset
    unix - offset
  else unix

/-- A civil reading as a second count from the Unix epoch, ignoring any zone. -/
def civilUnix (year month day hour min sec : Int) : Int :=
  let d := daysSinceEpoch year + daysBefore (month - 1)
    + (if isLeap year && decide (month ≥ 3) then 1 else 0) + (day - 1)
  d * 86400 + (hour * 3600 + min * 60 + sec) - unixToInternal

/-- Go `containsDotDot`. -/
def containsDotDot : List Char → Bool
  | '.' :: '.' :: _ => true
  | _ :: rest => containsDotDot rest
  | [] => false

end GoTime

namespace GoFloat

/-- Two's-complement wrap of an integer to the range of Go's 64-bit `int`. -/
def wrapInt64 (x : Int) : Int := (x + 9223372036854775808) % 18446744073709551616 - 9223372036854775808

/-- A finite `float64` value as an exact dyadic rational: `(-1)^neg * num / 2^sh`. -/
structure Float64 where
  neg : Bool
  num : Nat
  sh : Nat


/-- The quotient `a / b` rounded to the nearest integer, ties to the even one. -/
def roundHalfEven (a b : Nat) : Nat :=
  let q := a / b
  let r := a % b
  if 2 * r < b then q
  else if 2 * r > b then q + 1
  else if q % 2 = 0 then q else q + 1

/-- Number of binary digits of `n`, computed with `fuel` halvings. -/
def bitLen : Nat → Nat → Nat
  | 0, _ => 0
  | fuel + 1, n => if n = 0 then 0 else bitLen fuel (n / 2) + 1

/-- Number of binary digits of `n` (0 for 0). -/
def bits (n : Nat) : Nat := bitLen n n

/-- Go conversion `float64(x)` of a 64-bit integer: `|x|` keeps its 53 leading bits,
rounded to nearest even. -/
def ofInt (x : Int) : Float64 :=
  let n := x.natAbs
  let k := bits n - 53
  ⟨decide (x < 0), roundHalfEven n (2 ^ k) * 2 ^ k, 0⟩

/-- IEEE-754 division of a `float64` by the positive integer constant `y` (here 3600.0):
the exact quotient rounded to a 53-bit significand, nearest even.  Results stay in the
normal range for every quotient the program can form. -/
def divNat (x : Float64) (y : Nat) : Float64 :=
  let a := x.num
  let b := y * 2 ^ x.sh
  if a = 0 then ⟨x.neg, 0, 0⟩
  else
    let l : Int := (bits a : Int) - (bits b : Int)
    let floorLog : Int := if a * 2 ^ (-l).toNat ≥ b * 2 ^ l.toNat then l else l - 1
    let e : Int := floorLog - 52
    let m := roundHalfEven (a * 2 ^ (-e).toNat) (b * 2 ^ e.toNat)
    ⟨x.neg, m * 2 ^ e.toNat, (-e).toNat⟩

/-- Go `math.Mod(x, 1.0)`: the fractional part, with the sign of `x`; exact. -/
def mod1 (x : Float64) : Float64 := ⟨x.neg, x.num % 2 ^ x.sh, x.sh⟩

/-- Comparison `x == 0` (both zeros compare equal to 0). -/
def isZero (x : Float64) : Bool := x.num == 0

/-- Go `fmt.Sprintf("%+.<prec>f", x)`: explicit sign, integer digits, a point and `prec`
fractional digits, the exact value rounded to nearest, ties to even. -/
def fmtPlusFixed (prec : Nat) (x : Float64) : List Char :=
  let n := roundHalfEven (x.num * 10 ^ prec) (2 ^ x.sh)
  [if x.neg then '-' else '+'] ++ GoStrings.decimal (n / 10 ^ prec) ++ ['.']
    ++ GoStrings.zeroPad prec (GoStrings.decimal (n % 10 ^ prec))

end GoFloat

namespace Types

/-- The repository's `types.TimeResult`. -/
structure TimeResult where
  Timezone : String
  Datetime : String
  DayOfWeek : String
  IsDst : Bool
deriving DecidableEq

/-- The repository's `types.TimeConversionResult`. -/
structure TimeConversionResult where
  Source : TimeResult
  Target : TimeResult
  TimeDifference : String
deriving DecidableEq

/-- The repository's `types.GetCurrentTimeInput`. -/
structure GetCurrentTimeInput where
  Timezone : String
deriving DecidableEq

/-- The repository's `types.ConvertTimeInput`. -/
structure ConvertTimeInput where
  SourceTimezone : String
  Time : String
  TargetTimezone : String
deriving DecidableEq

/-- Go zero value `types.TimeResult{}`. -/
def TimeResult.zero : TimeResult := ⟨"", "", "", false⟩

/-- Go zero value `types.TimeConversionResult{}`. -/
def TimeConversionResult.zero : TimeConversionResult :=
  ⟨TimeResult.zero, TimeResult.zero, ""⟩

end Types

/-- What the program reads from its host: the zone database behind `time.LoadLocation`
(with the error text of a failed load), `time.Local`, one reading of the clock
(`time.Now()`, Unix seconds and nanoseconds), `strconv.Quote`, which the `%q` verb
applies to a string, and the text of the `*time.ParseError` that `time.Parse` returns for
a layout and a value it rejects. -/
structure World where
  zoneinfo : String → Except String GoTime.Location
  localLoc : GoTime.Location
  nowSec : Int
  nowNsec : Int
  quote : String → String
  parseErrorText : String → String → String

namespace GoTime

/-- Go `time.LoadLocation`: `""` and `"UTC"` are UTC, `"Local"` is `time.Local`, names
with `..` or a leading slash or backslash are rejected, every other name is looked up
in the zone database. -/
def LoadLocation (w : World) (name : String) : Except String Location :=
  if name = "" ∨ name = "UTC" then .ok UTC
  else if name = "Local" then .ok w.localLoc
  else if containsDotDot name.data ∨ name.data.head? = some '/' ∨ name.data.head? = some '\\' then
    .error "time: invalid location name"
  else w.zoneinfo name

/-- Go `time.Now()`: the clock reading, presented in `time.Local`. -/
def Now (w : World) : Time := ⟨w.nowSec, w.nowNsec, w.localLoc⟩

/-- Go zero value `time.Time{}`: 0001-01-01T00:00:00 UTC. -/
def Time.zero : Time := ⟨-unixToInternal, 0, UTC⟩

/-- Go `(Time).Nanosecond()`. -/
def Time.Nanosecond (t : Time) : Int := t.nsec

/-- Go `time.FixedZone(name, offset)`: one zone, no transitions. -/
def FixedZone (name : String) (offset : Int) : Location :=
  ⟨name, fun _ => ⟨offset, alphaSec, omegaSec⟩⟩

/-- Go `daysIn(m, year)`. -/
def daysIn (m year : Int) : Int :=
  if m = 2 ∧ isLeap year then 29 else daysBefore m - daysBefore (m - 1)

/-- Layout chunk `2006`: exactly four digits. -/
def parseYear (value : List Char) : Option (Int × List Char) :=
  match value with
  | a :: b :: c :: d :: rest =>
    if isDigit value 0 && isDigit value 1 && isDigit value 2 && isDigit value 3 then
      some (((digitVal a * 10 + digitVal b) * 10 + digitVal c) * 10 + digitVal d, rest)
    else none
  | _ => none

/-- Go `skip(value, prefix)` for a one-character literal other than a space. -/
def skipChar (c : Char) (value : List Char) : Option (List Char) :=
  match value with
  | x :: rest => if x = c then some rest else none
  | [] => none

/-- Go `skip(value, " ")`: a space in the layout matches a run of spaces; a value that
goes on with another character is rejected. -/
def skipSpace (value : List Char) : Option (List Char) :=
  match value with
  | [] => some []
  | x :: _ => if x ≠ ' ' then none else some (value.dropWhile (fun c => c == ' '))

/-- Value of a run of decimal digits read left to right, starting from `acc`. -/
def digitsValue (acc : Int) : List Char → Int
  | [] => acc
  | c :: rest => digitsValue (acc * 10 + digitVal c) rest

/-- The fractional second that `time.Parse` accepts after the seconds when the layout has
none: a period or comma followed by digits.  `parseNanoseconds` keeps the first nine
digits, scaled to nanoseconds; all the digits are consumed. -/
def parseFraction (value : List Char) : Int × List Char :=
  match value with
  | c :: rest =>
    if (c = '.' ∨ c = ',') ∧ isDigit value 1 then
      let digits := rest.takeWhile (fun d => decide ('0' ≤ d) && decide (d ≤ '9'))
      let kept := digits.take 9
      (digitsValue 0 kept * 10 ^ (9 - kept.length),
        rest.dropWhile (fun d => decide ('0' ≤ d) && decide (d ≤ '9')))
    else (0, value)
  | [] => (0, value)

/-- Layout chunk `Z07:00`: `Z` (no offset, UTC), or a sign, two digits, a colon and two
digits, hours up to 24 and minutes up to 60; the offset in seconds. -/
def parseZone (value : List Char) : Option (Option Int × List Char) :=
  match value with
  | 'Z' :: rest => some (none, rest)
  | sign :: h1 :: h2 :: c :: m1 :: m2 :: rest =>
    if c ≠ ':' then none
    else
      match getnum [h1, h2] true, getnum [m1, m2] true with
      | some (hr, _), some (mm, _) =>
        if hr > 24 ∨ mm > 60 then none
        else if sign = '+' then some (some ((hr * 60 + mm) * 60), rest)
        else if sign = '-' then some (some (-((hr * 60 + mm) * 60)), rest)
        else none
      | _, _ => none
  | _ => none

/-- Go `time.Parse(layout, value)` for the two layouts the repository uses:
`time.RFC3339`, that is `"2006-01-02T15:04:05Z07:00"` (`rfc = true`), and
`"2006-01-02 15:04:05"` (`rfc = false`).  The chunks in order: four-digit year, `-`,
two-digit month 1..12, `-`, two-digit day, `T` or spaces, hour of one or two digits below
24, `:`, two-digit minute, `:`, two-digit second, an optional fraction, the zone for
RFC3339, and nothing left over; the day is then checked against the month.  The instant
is `Date(..., UTC)` moved back by the offset; a timestamp with an offset is presented in
`time.Local` when that has the same offset there, else in a fixed zone.  (For RFC3339 Go
first tries a stricter fast path, which accepts a subset of these strings with the same
result.) -/
def Parse (w : World) (rfc : Bool) (value : List Char) : Option Time :=
  match parseYear value with
  | none => none
  | some (year, value) =>
  match skipChar '-' value with
  | none => none
  | some value =>
  match getnum value true with
  | none => none
  | some (month, value) =>
  if month ≤ 0 ∨ 12 < month then none else
  match skipChar '-' value with
  | none => none
  | some value =>
  match getnum value true with
  | none => none
  | some (day, value) =>
  match (if rfc then skipChar 'T' value else skipSpace value) with
  | none => none
  | some value =>
  match getnum value false with
  | none => none
  | some (hour, value) =>
  if hour < 0 ∨ 24 ≤ hour then none else
  match skipChar ':' value with
  | none => none
  | some value =>
  match getnum value true with
  | none => none
  | some (min, value) =>
  if min < 0 ∨ 60 ≤ min then none else
  match skipChar ':' value with
  | none => none
  | some value =>
  match getnum value true with
  | none => none
  | some (sec, value) =>
  if sec < 0 ∨ 60 ≤ sec then none else
  let (nsec, value) := parseFraction value
  match (if rfc then parseZone value else some (none, value)) with
  | none => none
  | some (zone, value) =>
  if value.length ≠ 0 then none
  else if day < 1 ∨ day > daysIn month year then none
  else
    match zone with
    | none => some (Date year month day hour min sec nsec UTC)
    | some zoneOffset =>
      let t := Date year month day hour min sec nsec UTC
      let unix := t.sec - zoneOffset
      if (w.localLoc.lookup unix).offset = zoneOffset then some ⟨unix, t.nsec, w.localLoc⟩
      else some ⟨unix, t.nsec, FixedZone "" zoneOffset⟩

end GoTime

namespace Timezone

open GoTime

/-- The repository's `timezone.FormatISOSeconds`. -/
def FormatISOSeconds (t : Time) : String :=
  String.mk (formatISO t)

/-- The repository's `timezone.IsDST`. -/
def IsDST (t : Time) : Bool :=
  let year := t.Year
  let loc := t.loc
  let jan := Date year 1 1 0 0 0 0 loc
  let jul := Date year 7 1 0 0 0 0 loc
  let offJan := jan.zoneOffset
  let offJul := jul.zoneOffset
  let standard := offJan
  let standard := if offJul < standard then offJul else standard
  let offNow := t.zoneOffset
  offNow != standard

/-- The repository's `timezone.GetNowInLocation`. -/
def GetNowInLocation (w : World) (tz : String) : Time × Option String :=
  let tz := if tz = "" then "UTC" else tz
  match LoadLocation w tz with
  | .error err => (Time.zero, some ("unknown timezone " ++ w.quote tz ++ ": " ++ err))
  | .ok loc => ((Now w).In loc, none)

/-- The end of `timezone.ConvertTimeString` (lines 73-79): load the destination zone
and present the parsed instant there. -/
def convertTail (w : World) (parsed : Time) (toTZ : String) : Time × Option String :=
  match LoadLocation w toTZ with
  | .error err => (Time.zero, some ("invalid to timezone " ++ w.quote toTZ ++ ": " ++ err))
  | .ok locTo => (parsed.In locTo, none)

/-- The repository's `timezone.ConvertTimeString`. -/
def ConvertTimeString (w : World) (tstr fromTZ toTZ : String) : Time × Option String :=
  if tstr = "" then (Time.zero, some "time string is empty")
  else
    match Parse w true tstr.data with
    | some parsed => convertTail w parsed toTZ
    | none =>
      match Parse w false tstr.data with
      | none =>
        (Time.zero, some ("unable to parse time " ++ w.quote tstr ++ ": "
          ++ w.parseErrorText "2006-01-02 15:04:05" tstr))
      | some parsed =>
        if fromTZ = "" then
          convertTail w (Date parsed.Year parsed.Month parsed.Day parsed.Hour parsed.Minute
            parsed.Second parsed.Nanosecond UTC) toTZ
        else
          match LoadLocation w fromTZ with
          | .error err =>
            (Time.zero, some ("invalid from timezone " ++ w.quote fromTZ ++ ": " ++ err))
          | .ok locFrom =>
            convertTail w (Date parsed.Year parsed.Month parsed.Day parsed.Hour
              parsed.Minute parsed.Second parsed.Nanosecond locFrom) toTZ

/-- The repository's `timezone.GetLocalTimezone`; `time.Local.String()` is the name of
`time.Local`. -/
def GetLocalTimezone (w : World) (override : String) : String :=
  if override ≠ "" then override
  else
    let localZone := w.localLoc.name
    if localZone = "Local" then "UTC" else localZone

end Timezone

namespace Timeutil

open GoTime Types

/-- The repository's `timeutil.FormatTimeDifference`. -/
def FormatTimeDifference (offsetSource offsetTarget : Int) : String :=
  let hoursDifference :=
    GoFloat.divNat (GoFloat.ofInt (GoFloat.wrapInt64 (offsetTarget - offsetSource))) 3600
  if GoFloat.isZero (GoFloat.mod1 hoursDifference) then
    String.mk (GoFloat.fmtPlusFixed 1 hoursDifference ++ ['h'])
  else
    let s := GoFloat.fmtPlusFixed 2 hoursDifference
    let s := GoStrings.trimRight s '0'
    let s := GoStrings.trimRight s '.'
    String.mk (s ++ ['h'])

/-- The repository's `timeutil.BuildTimeResult`. -/
def BuildTimeResult (t : Time) (tz : String) : TimeResult :=
  { Timezone := tz
    Datetime := Timezone.FormatISOSeconds t
    DayOfWeek := weekdayString t.Weekday
    IsDst := Timezone.IsDST t }

/-- The repository's `timeutil.ParseTimeInput`: hour, minute and error. -/
def ParseTimeInput (timeStr : String) : Int × Int × Option String :=
  match parseClock timeStr.data with
  | none => (0, 0, some "invalid time format. Expected HH:MM [24-hour format]")
  | some parsed => (parsed.Hour, parsed.Minute, none)

/-- The repository's `timeutil.ValidateConvertTimeInput`. -/
def ValidateConvertTimeInput (input : ConvertTimeInput) : Option String :=
  if input.SourceTimezone = "" then some "source_timezone is required"
  else if input.TargetTimezone = "" then some "target_timezone is required"
  else if input.Time = "" then some "time is required"
  else none

end Timeutil

namespace Handlers

open GoTime Types

/-- The repository's `handlers.GetCurrentTime` (the `*mcp.CallToolResult` it returns is
always `nil` and is left out). -/
def GetCurrentTime (w : World) (input : GetCurrentTimeInput) : TimeResult × Option String :=
  let tz := input.Timezone
  let tz := if tz = "" then "UTC" else tz
  match Timezone.GetNowInLocation w tz with
  | (_, some err) => (TimeResult.zero, some ("invalid timezone: " ++ err))
  | (now, none) => (Timeutil.BuildTimeResult now tz, none)

/-- The source and target instants `handlers.ConvertTime` builds once validation,
parsing and both zone lookups have succeeded (lines 57-65). -/
def convertInstants (sourceNow : Time) (hour minute : Int) (locFrom locTo : Location) :
    Time × Time :=
  let sourceTime := Date sourceNow.Year sourceNow.Month sourceNow.Day hour minute 0 0 locFrom
  let targetTime := sourceTime.In locTo
  (sourceTime, targetTime)

/-- The repository's `handlers.ConvertTime` (the `*mcp.CallToolResult` it returns is
always `nil` and is left out).  The second `LoadLocation` of the source zone discards
its error; a failed load would hand `time.Date` a nil location, which panics, and is
modelled by `none`. -/
def ConvertTime (w : World) (input : ConvertTimeInput) :
    Option (TimeConversionResult × Option String) :=
  match Timeutil.ValidateConvertTimeInput input with
  | some err => some (TimeConversionResult.zero, some err)
  | none =>
    match Timeutil.ParseTimeInput input.Time with
    | (_, _, some err) => some (TimeConversionResult.zero, some err)
    | (hour, minute, none) =>
      match Timezone.GetNowInLocation w input.SourceTimezone with
      | (_, some err) =>
        some (TimeConversionResult.zero,
          some ("invalid source timezone " ++ w.quote input.SourceTimezone ++ ": " ++ err))
      | (sourceNow, none) =>
        match LoadLocation w input.SourceTimezone with
        | .error _ => none
        | .ok locFrom =>
          match LoadLocation w input.TargetTimezone with
          | .error err =>
            some (TimeConversionResult.zero,
              some ("invalid target timezone " ++ w.quote input.TargetTimezone ++ ": " ++ err))
          | .ok locTo =>
            let (sourceTime, targetTime) := convertInstants sourceNow hour minute locFrom locTo
            let offSource := sourceTime.zoneOffset
            let offTarget := targetTime.zoneOffset
            let timeDiffStr := Timeutil.FormatTimeDifference offSource offTarget
            some ({ Source := Timeutil.BuildTimeResult sourceTime input.SourceTimezone
                    Target := Timeutil.BuildTimeResult targetTime input.TargetTimezone
                    TimeDifference := timeDiffStr }, none)

end Handlers

namespace Sample

open GoTime

/-- A zone that alternates between two offsets, as seen around 2025: offset `offA` up to
the transition `t1`, `offB` from `t1` to `t2`, `offA` again afterwards.  `t0` and `t3` are
the neighbouring transitions of 2024 and 2026, which bound the outer ranges. -/
def seasonal (name : String) (offA offB t0 t1 t2 t3 : Int) : Location :=
  { name := name
    lookup := fun sec =>
      if sec < t1 then ⟨offA, t0, t1⟩
      else if sec < t2 then ⟨offB, t1, t2⟩
      else ⟨offA, t2, t3⟩ }

/-- A zone with a single offset. -/
def fixedZone (name : String) (off : Int) : Location :=
  { name := name, lookup := fun _ => ⟨off, alphaSec, omegaSec⟩ }

/-- America/New_York around 2025: EST, EDT from 2025-03-09T07:00Z to 2025-11-02T06:00Z. -/
def newYork : Location :=
  seasonal "America/New_York" (-18000) (-14400) 1730613600 1741503600 1762063200 1772953200

/-- Europe/Paris around 2025: CET, CEST from 2025-03-30T01:00Z to 2025-10-26T01:00Z. -/
def paris : Location :=
  seasonal "Europe/Paris" 3600 7200 1729990800 1743296400 1761440400 1774746000

/-- Australia/Sydney around 2025: AEDT, AEST from 2025-04-05T16:00Z to 2025-10-04T16:00Z. -/
def sydney : Location :=
  seasonal "Australia/Sydney" 39600 36000 1728144000 1743868800 1759593600 1775318400

/-- Asia/Kathmandu: UTC+05:45. -/
def kathmandu : Location := fixedZone "Asia/Kathmandu" 20700

/-- Asia/Tokyo: UTC+09:00. -/
def tokyo : Location := fixedZone "Asia/Tokyo" 32400

/-- A small zone database. -/
def zoneinfo (name : String) : Except String Location :=
  if name = "America/New_York" then .ok newYork
  else if name = "Europe/Paris" then .ok paris
  else if name = "Australia/Sydney" then .ok sydney
  else if name = "Asia/Kathmandu" then .ok kathmandu
  else if name = "Asia/Tokyo" then .ok tokyo
  else .error ("unknown time zone " ++ name)

/-- A host with the small zone database whose clock reads `nowSec`; `%q` wraps a plain
name in double quotes, and a parse error names the value and the layout. -/
def world (nowSec : Int) : World :=
  { zoneinfo := zoneinfo
    localLoc := UTC
    nowSec := nowSec
    nowNsec := 0
    quote := fun s => "\"" ++ s ++ "\""
    parseErrorText := fun layout value => "cannot parse " ++ value ++ " as " ++ layout }

/-- The host at 2025-03-09T12:00:00Z, the day clocks spring forward in New York. -/
def marchWorld : World := world 1741521600

/-- The host at 2025-07-15T12:00:00Z. -/
def julyWorld : World := world 1752580800

end Sample

namespace Spec

/-- A decimal digit, `\d`. -/
def isDigitChar (c : Char) : Bool := decide ('0' ≤ c) && decide (c ≤ '9')

/-- The spec's `time_difference` format `^[+-]\d+\.\d+h$`. -/
def isDiffShape (s : List Char) : Bool :=
  match s with
  | [] => false
  | sign :: rest =>
    (sign == '+' || sign == '-') &&
      (match rest.dropWhile isDigitChar with
       | '.' :: rest2 =>
         !(rest.takeWhile isDigitChar).isEmpty && !(rest2.takeWhile isDigitChar).isEmpty
           && rest2.dropWhile isDigitChar == ['h']
       | _ => false)

/-- The spec's `datetime` format `YYYY-MM-DDTHH:MM:SS±HH:MM`: 25 characters, digits
everywhere except the separators and the sign. -/
def isISOShape (s : List Char) : Bool :=
  match s with
  | [y1, y2, y3, y4, a, m1, m2, b, d1, d2, t, h1, h2, c, n1, n2, d, s1, s2, sg, o1, o2, e, o3, o4] =>
    [y1, y2, y3, y4, m1, m2, d1, d2, h1, h2, n1, n2, s1, s2, o1, o2, o3, o4].all isDigitChar
      && a == '-' && b == '-' && t == 'T' && c == ':' && d == ':' && e == ':'
      && (sg == '+' || sg == '-')
  | _ => false

/-- The spec's clock strings, `H:MM` or `HH:MM` with hour 0..23 and minute 0..59, and the
hour and minute they denote. -/
def clockSpec (s : List Char) : Option (Int × Int) :=
  match s with
  | [h1, c, m1, m2] =>
    if isDigitChar h1 && c == ':' && isDigitChar m1 && isDigitChar m2
        && decide (GoTime.digitVal m1 * 10 + GoTime.digitVal m2 ≤ 59) then
      some (GoTime.digitVal h1, GoTime.digitVal m1 * 10 + GoTime.digitVal m2)
    else none
  | [h1, h2, c, m1, m2] =>
    if isDigitChar h1 && isDigitChar h2 && c == ':' && isDigitChar m1 && isDigitChar m2
        && decide (GoTime.digitVal h1 * 10 + GoTime.digitVal h2 ≤ 23)
        && decide (GoTime.digitVal m1 * 10 + GoTime.digitVal m2 ≤ 59) then
      some (GoTime.digitVal h1 * 10 + GoTime.digitVal h2,
        GoTime.digitVal m1 * 10 + GoTime.digitVal m2)
    else none
  | _ => none

/-- Day count from 0001-01-01 of a calendar date (proleptic Gregorian), by the usual
closed formula: whole years, then whole months, then days. -/
def daysOfDate (year month day : Int) : Int :=
  let y := year - 1
  365 * y + y / 4 - y / 100 + y / 400 + GoTime.daysBefore (month - 1)
    + (if GoTime.isLeap year && decide (month ≥ 3) then 1 else 0) + (day - 1)

/-- English name of the weekday of a calendar date; 0001-01-01 was a Monday. -/
def weekdayName (year month day : Int) : String :=
  GoTime.weekdayString ((daysOfDate year month day + 1) % 7)

/-- The digits of `f` hundredths (`f` below one hundred) after the point, a trailing
zero stripped: `25`, `5` for fifty, `75`. -/
def strippedHundredths (f : Nat) : List Char :=
  if f % 10 = 0 then [GoStrings.digitChar (f / 10)]
  else [GoStrings.digitChar (f / 10), GoStrings.digitChar (f % 10)]

/-- Sign character of a difference: `'-'` when negative, `'+'` otherwise (zero included). -/
def signChar (d : Int) : Char := if d < 0 then '-' else '+'

/-- Two decimal digits of a number below one hundred. -/
def twoDigits (n : Nat) : List Char :=
  [GoStrings.digitChar (n / 10), GoStrings.digitChar (n % 10)]

/-- The text `YYYY-MM-DDTHH:MM:SS±HH:MM` for given field values: year below 10000, the
other fields below 100, `neg` choosing the sign of the offset. -/
def isoText (year month day hour min sec : Nat) (neg : Bool) (offHour offMin : Nat) :
    List Char :=
  [GoStrings.digitChar (year / 1000), GoStrings.digitChar (year / 100 % 10),
    GoStrings.digitChar (year / 10 % 10), GoStrings.digitChar (year % 10)]
    ++ ['-'] ++ twoDigits month ++ ['-'] ++ twoDigits day ++ ['T'] ++ twoDigits hour
    ++ [':'] ++ twoDigits min ++ [':'] ++ twoDigits sec
    ++ [if neg then '-' else '+'] ++ twoDigits offHour ++ [':'] ++ twoDigits offMin

/-- A fully-qualified timestamp of the instant `t`: a string that `time.Parse` reads,
with layout `time.RFC3339`, as the second and nanosecond of `t`. -/
def isTimestampOf (w : World) (s : String) (t : GoTime.Time) : Bool :=
  match GoTime.Parse w true s.data with
  | some p => decide (p.sec = t.sec) && decide (p.nsec = t.nsec)
  | none => false

end Spec

/-! ## Lemmas: decimal digits -/

namespace GoStrings

theorem digitsAux_fuel : ∀ (fuel n : Nat) (acc : List Char), n < fuel →
    digitsAux fuel n acc = digitsAux (n + 1) n [] ++ acc := by
  intro fuel
  induction fuel using Nat.strong_induction_on with
  | _ fuel ih =>
    intro n acc hn
    cases fuel with
    | zero => omega
    | succ f =>
      by_cases h10 : n < 10
      · simp [digitsAux, h10]
      · have hdiv : n / 10 < n := by omega
        have e1 : digitsAux (f + 1) n acc
            = digitsAux f (n / 10) (digitChar (n % 10) :: acc) := by
          simp [digitsAux, h10]
        have e2 : digitsAux (n + 1) n []
            = digitsAux n (n / 10) [digitChar (n % 10)] := by
          simp [digitsAux, h10]
        rw [e1, e2, ih f (Nat.lt_succ_self f) (n / 10) _ (by omega),
          ih n (by omega) (n / 10) _ hdiv]
        simp

theorem decimal_lt_ten {n : Nat} (h : n < 10) : decimal n = [digitChar n] := by
  simp [decimal, digitsAux, h]

theorem decimal_ge_ten {n : Nat} (h : 10 ≤ n) :
    decimal n = decimal (n / 10) ++ [digitChar (n % 10)] := by
  have h10 : ¬ n < 10 := by omega
  have e : digitsAux (n + 1) n [] = digitsAux n (n / 10) [digitChar (n % 10)] := by
    simp [digitsAux, h10]
  unfold decimal
  rw [e, digitsAux_fuel n (n / 10) _ (by omega)]

theorem isDigit_digitChar (n : Nat) : Spec.isDigitChar (digitChar n) = true := by
  unfold digitChar
  split <;> decide

theorem decimal_digits (n : Nat) : ∀ c ∈ decimal n, Spec.isDigitChar c = true := by
  induction n using Nat.strong_induction_on with
  | _ n ih =>
    intro c hc
    by_cases h : n < 10
    · rw [decimal_lt_ten h] at hc
      simp at hc
      subst hc
      exact isDigit_digitChar n
    · rw [decimal_ge_ten (by omega)] at hc
      rcases List.mem_append.mp hc with h1 | h1
      · exact ih (n / 10) (by omega) c h1
      · simp at h1
        subst h1
        exact isDigit_digitChar _

theorem decimal_ne_nil (n : Nat) : decimal n ≠ [] := by
  by_cases h : n < 10
  · rw [decimal_lt_ten h]; simp
  · rw [decimal_ge_ten (by omega)]; simp

theorem decimal_two {n : Nat} (h1 : 10 ≤ n) (h2 : n < 100) :
    decimal n = [digitChar (n / 10), digitChar (n % 10)] := by
  rw [decimal_ge_ten h1, decimal_lt_ten (by omega)]
  rfl

theorem decimal_three {n : Nat} (h1 : 100 ≤ n) (h2 : n < 1000) :
    decimal n = [digitChar (n / 100), digitChar (n / 10 % 10), digitChar (n % 10)] := by
  rw [decimal_ge_ten (by omega), decimal_two (by omega) (by omega)]
  have : n / 10 / 10 = n / 100 := by omega
  rw [this]
  rfl

theorem decimal_four {n : Nat} (h1 : 1000 ≤ n) (h2 : n < 10000) :
    decimal n = [digitChar (n / 1000), digitChar (n / 100 % 10), digitChar (n / 10 % 10),
      digitChar (n % 10)] := by
  rw [decimal_ge_ten (by omega), decimal_three (by omega) (by omega)]
  have e1 : n / 10 / 100 = n / 1000 := by omega
  have e2 : n / 10 / 10 % 10 = n / 100 % 10 := by omega
  rw [e1, e2]
  rfl

/-- Two-digit rendering of a number below one hundred. -/
theorem zeroPad_two {n : Nat} (h : n < 100) :
    zeroPad 2 (decimal n) = [digitChar (n / 10), digitChar (n % 10)] := by
  by_cases h10 : n < 10
  · rw [decimal_lt_ten h10]
    have e1 : n / 10 = 0 := by omega
    have e2 : n % 10 = n := by omega
    rw [e1, e2]
    rfl
  · rw [decimal_two (by omega) h]
    rfl

/-- Four-digit rendering of a number below ten thousand. -/
theorem zeroPad_four {n : Nat} (h : n < 10000) :
    zeroPad 4 (decimal n) = [digitChar (n / 1000), digitChar (n / 100 % 10),
      digitChar (n / 10 % 10), digitChar (n % 10)] := by
  by_cases h10 : n < 10
  · rw [decimal_lt_ten h10]
    have e1 : n / 1000 = 0 := by omega
    have e2 : n / 100 % 10 = 0 := by omega
    have e3 : n / 10 % 10 = 0 := by omega
    have e4 : n % 10 = n := by omega
    rw [e1, e2, e3, e4]
    rfl
  · by_cases h100 : n < 100
    · rw [decimal_two (by omega) h100]
      have e1 : n / 1000 = 0 := by omega
      have e2 : n / 100 % 10 = 0 := by omega
      have e3 : n / 10 % 10 = n / 10 := by omega
      rw [e1, e2, e3]
      rfl
    · by_cases h1000 : n < 1000
      · rw [decimal_three (by omega) h1000]
        have e1 : n / 1000 = 0 := by omega
        have e2 : n / 100 % 10 = n / 100 := by omega
        rw [e1, e2]
        rfl
      · rw [decimal_four (by omega) h]
        rfl

theorem appendInt_two {x : Int} (h0 : 0 ≤ x) (h : x < 100) :
    appendInt x 2 = [digitChar (x.toNat / 10), digitChar (x.toNat % 10)] := by
  have hx : ¬ x < 0 := by omega
  have e : x.natAbs = x.toNat := by omega
  simp only [appendInt, hx, if_false, List.nil_append, e]
  exact zeroPad_two (by omega)

theorem appendInt_four {x : Int} (h0 : 0 ≤ x) (h : x < 10000) :
    appendInt x 4 = [digitChar (x.toNat / 1000), digitChar (x.toNat / 100 % 10),
      digitChar (x.toNat / 10 % 10), digitChar (x.toNat % 10)] := by
  have hx : ¬ x < 0 := by omega
  have e : x.natAbs = x.toNat := by omega
  simp only [appendInt, hx, if_false, List.nil_append, e]
  exact zeroPad_four (by omega)

end GoStrings

/-! ## Lemmas: the calendar -/

namespace GoTime

theorem daysSinceEpoch_eq (a b c e : Int) (hb : 0 ≤ b) (hb3 : b ≤ 3) (hc : 0 ≤ c)
    (hc24 : c ≤ 24) (he : 0 ≤ e) (he3 : e ≤ 3) :
    daysSinceEpoch (400 * a + 100 * b + 4 * c + e + 1)
      = 146097 * a + 36524 * b + 1461 * c + 365 * e := by
  simp only [daysSinceEpoch]
  have h1 : (400 * a + 100 * b + 4 * c + e + 1 - 1) / 400 = a := by omega
  rw [h1]
  have h2 : (400 * a + 100 * b + 4 * c + e + 1 - 1 - 400 * a) / 100 = b := by omega
  rw [h2]
  have h3 : (400 * a + 100 * b + 4 * c + e + 1 - 1 - 400 * a - 100 * b) / 4 = c := by omega
  rw [h3]
  omega

theorem isLeap_iff (y : Int) :
    isLeap y = true ↔ (y % 4 = 0 ∧ (y % 100 ≠ 0 ∨ y % 400 = 0)) := by
  simp only [isLeap, Bool.and_eq_true, Bool.or_eq_true, beq_iff_eq, bne_iff_ne, ne_eq]

theorem isLeap_eq (a b c e : Int) (hb : 0 ≤ b) (hb3 : b ≤ 3) (hc : 0 ≤ c)
    (hc24 : c ≤ 24) (he : 0 ≤ e) (he3 : e ≤ 3) :
    isLeap (400 * a + 100 * b + 4 * c + e + 1) = decide (e = 3 ∧ (c ≠ 24 ∨ b = 3)) := by
  rw [Bool.eq_iff_iff, isLeap_iff, decide_eq_true_eq]
  constructor
  · intro h
    omega
  · intro h
    omega

theorem absYear_spec (d : Int) : ∃ a b c e : Int, 0 ≤ b ∧ b ≤ 3 ∧ 0 ≤ c ∧ c ≤ 24 ∧ 0 ≤ e ∧
    e ≤ 3 ∧ (absYear d).1 = 400 * a + 100 * b + 4 * c + e + 1 ∧
    d = 146097 * a + 36524 * b + 1461 * c + 365 * e + (absYear d).2 ∧
    0 ≤ (absYear d).2 ∧
    ((absYear d).2 ≤ 364 ∨ ((absYear d).2 = 365 ∧ e = 3 ∧ (c ≠ 24 ∨ b = 3))) := by
  simp only [absYear]
  generalize ha : d / 146097 = a
  have hd1 : 0 ≤ d - 146097 * a ∧ d - 146097 * a < 146097 := by omega
  generalize hd1e : d - 146097 * a = d1 at *
  generalize hn1 : d1 / 36524 = n1
  have hn1b : 0 ≤ n1 ∧ n1 ≤ 4 := by omega
  generalize hb : n1 - n1 / 4 = b
  have hbb : 0 ≤ b ∧ b ≤ 3 ∧ (n1 ≤ 3 → b = n1) ∧ (n1 = 4 → b = 3) := by omega
  have hd2 : 0 ≤ d1 - 36524 * b ∧ d1 - 36524 * b ≤ 36524
      ∧ (d1 - 36524 * b = 36524 → b = 3) := by omega
  generalize hd2e : d1 - 36524 * b = d2 at *
  generalize hc : d2 / 1461 = c
  have hcb : 0 ≤ c ∧ c ≤ 24 := by omega
  have hd3 : 0 ≤ d2 - 1461 * c ∧ d2 - 1461 * c < 1461 := by omega
  generalize hd3e : d2 - 1461 * c = d3 at *
  generalize hn4 : d3 / 365 = n4
  have hn4b : 0 ≤ n4 ∧ n4 ≤ 4 := by omega
  generalize he : n4 - n4 / 4 = e
  have heb : 0 ≤ e ∧ e ≤ 3 ∧ (n4 ≤ 3 → e = n4) ∧ (n4 = 4 → e = 3) := by omega
  refine ⟨a, b, c, e, hbb.1, hbb.2.1, hcb.1, hcb.2, heb.1, heb.2.1, rfl, by omega,
    by omega, ?_⟩
  omega

/-- The year and day of the year of a day count give the day count back, and the day
of the year is below the length of that year. -/
theorem absYear_roundtrip (d : Int) :
    daysSinceEpoch (absYear d).1 + (absYear d).2 = d ∧ 0 ≤ (absYear d).2 ∧
      (absYear d).2 < (if isLeap (absYear d).1 then 366 else 365) := by
  obtain ⟨a, b, c, e, hb, hb3, hc, hc24, he, he3, hy, hd, h0, hlast⟩ := absYear_spec d
  rw [hy, daysSinceEpoch_eq a b c e hb hb3 hc hc24 he he3,
    isLeap_eq a b c e hb hb3 hc hc24 he he3]
  refine ⟨by omega, h0, ?_⟩
  rcases hlast with h | ⟨h1, h2, h3⟩
  · split <;> omega
  · have : (e = 3 ∧ (c ≠ 24 ∨ b = 3)) := ⟨h2, h3⟩
    simp only [this, and_self, decide_True, if_true]
    omega

theorem monthDay_leap (year yday : Int) :
    monthDay year yday = monthDay (if isLeap year then 4 else 1) yday := by
  unfold monthDay
  cases h : isLeap year <;> simp [isLeap]

set_option maxRecDepth 100000 in
theorem monthDay_table : ∀ year ∈ [(1 : Int), 4], ∀ n : Fin 366,
    (n.val : Int) < (if isLeap year then 366 else 365) →
      1 ≤ (monthDay year n.val).1 ∧ (monthDay year n.val).1 ≤ 12 ∧
      1 ≤ (monthDay year n.val).2 ∧ (monthDay year n.val).2 ≤ 31 ∧
      daysBefore ((monthDay year n.val).1 - 1)
        + (if isLeap year && decide ((monthDay year n.val).1 ≥ 3) then 1 else 0)
        + ((monthDay year n.val).2 - 1) = n.val := by
  decide

end GoTime

namespace GoTime

theorem monthDay_spec (year yday : Int) (h0 : 0 ≤ yday)
    (h1 : yday < (if isLeap year then 366 else 365)) :
    1 ≤ (monthDay year yday).1 ∧ (monthDay year yday).1 ≤ 12 ∧
    1 ≤ (monthDay year yday).2 ∧ (monthDay year yday).2 ≤ 31 ∧
    daysBefore ((monthDay year yday).1 - 1)
      + (if isLeap year && decide ((monthDay year yday).1 ≥ 3) then 1 else 0)
      + ((monthDay year yday).2 - 1) = yday := by
  rw [monthDay_leap]
  have hn : yday.toNat < 366 := by split at h1 <;> omega
  have hv : ((⟨yday.toNat, hn⟩ : Fin 366).val : Int) = yday := by
    simp only [Int.toNat_of_nonneg h0]
  cases hl : isLeap year
  · have := monthDay_table 1 (by simp) ⟨yday.toNat, hn⟩
    rw [hv] at this
    simp only [hl] at h1
    exact this (by simpa [isLeap] using h1)
  · have := monthDay_table 4 (by simp) ⟨yday.toNat, hn⟩
    rw [hv] at this
    simp only [hl] at h1
    exact this (by simpa [isLeap] using h1)

/-- The civil date of a local second count: month and day are in range and the date
counts back to the day of the second count. -/
theorem absDate_spec (a : Int) :
    1 ≤ (absDate a).2.1 ∧ (absDate a).2.1 ≤ 12 ∧
    1 ≤ (absDate a).2.2 ∧ (absDate a).2.2 ≤ 31 ∧
    daysSinceEpoch (absDate a).1 + daysBefore ((absDate a).2.1 - 1)
      + (if isLeap (absDate a).1 && decide ((absDate a).2.1 ≥ 3) then 1 else 0)
      + ((absDate a).2.2 - 1) = a / 86400 := by
  obtain ⟨hr, h0, h1⟩ := absYear_roundtrip (a / 86400)
  obtain ⟨m1, m12, d1, d31, hsum⟩ := monthDay_spec _ _ h0 h1
  simp only [absDate]
  refine ⟨m1, m12, d1, d31, ?_⟩
  omega

theorem daysSinceEpoch_closed (year : Int) :
    daysSinceEpoch year
      = 365 * (year - 1) + (year - 1) / 4 - (year - 1) / 100 + (year - 1) / 400 := by
  simp only [daysSinceEpoch]
  generalize year - 1 = y
  generalize hn : y / 400 = n
  have h1 : 0 ≤ y - 400 * n ∧ y - 400 * n < 400 := by omega
  generalize hy1 : y - 400 * n = y1 at *
  generalize hc : y1 / 100 = c
  have h2 : 0 ≤ y1 - 100 * c ∧ y1 - 100 * c < 100 ∧ 0 ≤ c ∧ c ≤ 3 := by omega
  generalize hy2 : y1 - 100 * c = y2 at *
  generalize hq : y2 / 4 = q
  have h3 : 0 ≤ y2 - 4 * q ∧ y2 - 4 * q < 4 ∧ 0 ≤ q ∧ q ≤ 24 := by omega
  have e1 : y / 4 = 100 * n + 25 * c + q := by omega
  have e2 : y / 100 = 4 * n + c := by omega
  omega

theorem norm_id {hi lo base : Int} (h0 : 0 ≤ lo) (h1 : lo < base) :
    norm hi lo base = (hi, lo) := by
  have a : ¬ lo < 0 := by omega
  have b : ¬ lo ≥ base := by omega
  simp [norm, a, b]


end GoTime

namespace GoTime
theorem Date_eq (year month day hour min sec nsec : Int) (loc : Location)
    (hm1 : 1 ≤ month) (hm12 : month ≤ 12) (hh0 : 0 ≤ hour) (hh : hour < 24)
    (hmi0 : 0 ≤ min) (hmi : min < 60) (hs0 : 0 ≤ sec) (hs : sec < 60)
    (hn0 : 0 ≤ nsec) (hn : nsec < 1000000000) :
    Date year month day hour min sec nsec loc
      = ⟨zoneAdjust loc (civilUnix year month day hour min sec), nsec, loc⟩ := by
  have e1 : norm year (month - 1) 12 = (year, month - 1) := norm_id (by omega) (by omega)
  have e2 : norm sec nsec 1000000000 = (sec, nsec) := norm_id hn0 hn
  have e3 : norm min sec 60 = (min, sec) := norm_id hs0 hs
  have e4 : norm hour min 60 = (hour, min) := norm_id hmi0 hmi
  have e5 : norm day hour 24 = (day, hour) := norm_id hh0 hh
  have key : ∀ (b : Bool) (A : Int),
      (if b = true then A + 1 else A) = A + (if b = true then 1 else 0) := by
    intro b A
    cases b <;> simp
  unfold Date
  simp only [e1, e2, e3, e4, e5, sub_add_cancel, key]
  rfl
end GoTime

namespace GoTime

theorem absDate_congr {a b : Int} (h : a / 86400 = b / 86400) : absDate a = absDate b := by
  simp only [absDate, h]

/-- A civil reading assembled from the date of some second count and a time of day
reads back as that date and that time of day. -/
theorem civil_fields (a hour min sec : Int) (hh0 : 0 ≤ hour) (hh : hour < 24)
    (hmi0 : 0 ≤ min) (hmi : min < 60) (hs0 : 0 ≤ sec) (hs : sec < 60) :
    let x := civilUnix (absDate a).1 (absDate a).2.1 (absDate a).2.2 hour min sec
      + unixToInternal
    absDate x = absDate a ∧ x % 86400 / 3600 = hour ∧ x % 3600 / 60 = min ∧ x % 60 = sec
      ∧ x / 86400 = a / 86400 := by
  intro x
  obtain ⟨_, _, _, _, hsum⟩ := absDate_spec a
  have hx : x = (a / 86400) * 86400 + (hour * 3600 + min * 60 + sec) := by
    simp only [x, civilUnix, hsum]
    omega
  have hd : x / 86400 = a / 86400 := by omega
  exact ⟨absDate_congr hd, by omega, by omega, by omega, hd⟩

theorem zoneAdjust_settled (loc : Location) (c : Int)
    (h : (loc.lookup (c - (loc.lookup c).offset)).offset = (loc.lookup c).offset) :
    zoneAdjust loc c = c - (loc.lookup c).offset := by
  unfold zoneAdjust
  by_cases h0 : (loc.lookup c).offset = 0
  · simp [h0]
  · simp only [ne_eq, h0, not_false_eq_true, if_true]
    split
    · rw [h]
    · rfl

theorem zoneAdjust_UTC (c : Int) : zoneAdjust UTC c = c := by
  simp [zoneAdjust, UTC]

theorem zoneOffset_UTC (s n : Int) : (Time.mk s n UTC).zoneOffset = 0 := rfl

/-- The clock that `time.Parse("15:04", ..)` builds reads back the parsed hour and minute. -/
theorem parsed_clock_fields (hour min : Int) (hh0 : 0 ≤ hour) (hh : hour < 24)
    (hmi0 : 0 ≤ min) (hmi : min < 60) :
    (Date 0 1 1 hour min 0 0 UTC).Hour = hour ∧ (Date 0 1 1 hour min 0 0 UTC).Minute = min := by
  rw [Date_eq 0 1 1 hour min 0 0 UTC (by omega) (by omega) hh0 hh hmi0 hmi (by omega)
    (by omega) (by omega) (by omega), zoneAdjust_UTC]
  have e : civilUnix 0 1 1 hour min 0 = -366 * 86400 + (hour * 3600 + min * 60) - unixToInternal := by
    have : daysSinceEpoch 0 = -366 := by decide
    simp [civilUnix, this, daysBefore, isLeap]
  simp only [Time.Hour, Time.Minute, Time.abs, zoneOffset_UTC, e, unixToInternal]
  constructor <;> omega

end GoTime

namespace GoTime

theorem digitVal_range {c : Char} (h : Spec.isDigitChar c = true) :
    0 ≤ digitVal c ∧ digitVal c ≤ 9 := by
  simp only [Spec.isDigitChar, Bool.and_eq_true, decide_eq_true_eq] at h
  obtain ⟨h1, h2⟩ := h
  have h1' : (48 : Nat) ≤ c.toNat := h1
  have h2' : c.toNat ≤ 57 := h2
  unfold digitVal
  omega

theorem colon_not_digit : Spec.isDigitChar ':' = false := by decide

end GoTime

namespace GoTime

theorem isDigit_zero (c : Char) (r : List Char) : isDigit (c :: r) 0 = Spec.isDigitChar c := rfl

theorem isDigit_one (c d : Char) (r : List Char) :
    isDigit (c :: d :: r) 1 = Spec.isDigitChar d := rfl

theorem isDigit_nil (i : Nat) : isDigit [] i = false := rfl

theorem isDigit_one_single (c : Char) : isDigit [c] 1 = false := rfl

theorem getnum_fixed (v : List Char) :
    getnum v true = match v with
      | c0 :: c1 :: rest =>
        if Spec.isDigitChar c0 = true ∧ Spec.isDigitChar c1 = true then
          some (digitVal c0 * 10 + digitVal c1, rest)
        else none
      | _ => none := by
  rcases v with _ | ⟨a, _ | ⟨b, r⟩⟩
  · rfl
  · by_cases ha : Spec.isDigitChar a = true <;>
      simp [getnum, isDigit_zero, isDigit_one_single, ha]
  · by_cases ha : Spec.isDigitChar a = true <;> by_cases hb : Spec.isDigitChar b = true <;>
      simp [getnum, isDigit_zero, isDigit_one, ha, hb]

theorem getnum_free (v : List Char) :
    getnum v false = match v with
      | [] => none
      | [c] => if Spec.isDigitChar c = true then some (digitVal c, []) else none
      | c0 :: c1 :: rest =>
        if Spec.isDigitChar c0 = true then
          (if Spec.isDigitChar c1 = true then some (digitVal c0 * 10 + digitVal c1, rest)
           else some (digitVal c0, c1 :: rest))
        else none := by
  rcases v with _ | ⟨a, _ | ⟨b, r⟩⟩
  · rfl
  · by_cases ha : Spec.isDigitChar a = true <;>
      simp [getnum, isDigit_zero, isDigit_one_single, ha]
  · by_cases ha : Spec.isDigitChar a = true <;> by_cases hb : Spec.isDigitChar b = true <;>
      simp [getnum, isDigit_zero, isDigit_one, ha, hb]

/-- What `time.Parse("15:04", ..)` does after the hour chunk. -/
theorem parse_minute (hour : Int) (v : List Char) :
    (match v with
      | ':' :: value =>
        match getnum value true with
        | none => none
        | some (min, value) =>
          if min < 0 ∨ 60 ≤ min then none
          else if value.length ≠ 0 then none
          else some (Date 0 1 1 hour min 0 0 UTC)
      | _ => none)
    = match v with
      | [c, m1, m2] =>
        if c = ':' ∧ Spec.isDigitChar m1 = true ∧ Spec.isDigitChar m2 = true
            ∧ digitVal m1 * 10 + digitVal m2 ≤ 59 then
          some (Date 0 1 1 hour (digitVal m1 * 10 + digitVal m2) 0 0 UTC)
        else none
      | _ => none := by
  rcases v with _ | ⟨c, v⟩
  · rfl
  · by_cases hc : c = ':'
    · subst hc
      rcases v with _ | ⟨m1, _ | ⟨m2, _ | ⟨x, r⟩⟩⟩
      · simp [getnum_fixed]
      · simp [getnum_fixed]
      · by_cases h1 : Spec.isDigitChar m1 = true <;> by_cases h2 : Spec.isDigitChar m2 = true
        · have r1 := digitVal_range h1
          have r2 := digitVal_range h2
          by_cases h60 : digitVal m1 * 10 + digitVal m2 ≤ 59
          · have : ¬ (digitVal m1 * 10 + digitVal m2 < 0 ∨ 60 ≤ digitVal m1 * 10 + digitVal m2) := by
              omega
            simp [getnum_fixed, h1, h2, h60, this]
          · have : (digitVal m1 * 10 + digitVal m2 < 0 ∨ 60 ≤ digitVal m1 * 10 + digitVal m2) := by
              omega
            simp [getnum_fixed, h1, h2, h60, this]
        · simp [getnum_fixed, h1, h2]
        · simp [getnum_fixed, h1, h2]
        · simp [getnum_fixed, h1, h2]
      · by_cases h1 : Spec.isDigitChar m1 = true <;> by_cases h2 : Spec.isDigitChar m2 = true <;>
          simp [getnum_fixed, h1, h2]
    · rcases v with _ | ⟨m1, _ | ⟨m2, _ | ⟨x, r⟩⟩⟩ <;> simp [hc]

end GoTime

namespace GoTime

theorem parseClock_eq (l : List Char) :
    parseClock l = (Spec.clockSpec l).map (fun p => Date 0 1 1 p.1 p.2 0 0 UTC) := by
  unfold parseClock
  simp only [parse_minute, getnum_free]
  rcases l with _ | ⟨a, _ | ⟨b, v⟩⟩
  · rfl
  · by_cases ha : Spec.isDigitChar a = true <;> simp [Spec.clockSpec, ha]
  · by_cases ha : Spec.isDigitChar a = true
    · have ra := digitVal_range ha
      by_cases hb : Spec.isDigitChar b = true
      · have rb := digitVal_range hb
        have hbc : b ≠ ':' := by
          intro h
          rw [h, colon_not_digit] at hb
          exact Bool.false_ne_true hb
        by_cases h24 : digitVal a * 10 + digitVal b ≤ 23
        · have hn : ¬ (digitVal a * 10 + digitVal b < 0 ∨ 24 ≤ digitVal a * 10 + digitVal b) := by
            omega
          rcases v with _ | ⟨c, _ | ⟨d, _ | ⟨e, _ | ⟨f, r⟩⟩⟩⟩ <;>
            simp [Spec.clockSpec, ha, hb, hbc, h24, hn, and_assoc]
        · have hn : (digitVal a * 10 + digitVal b < 0 ∨ 24 ≤ digitVal a * 10 + digitVal b) := by
            omega
          rcases v with _ | ⟨c, _ | ⟨d, _ | ⟨e, _ | ⟨f, r⟩⟩⟩⟩ <;>
            simp [Spec.clockSpec, ha, hb, hbc, h24, hn]
      · have hn : ¬ (digitVal a < 0 ∨ 24 ≤ digitVal a) := by omega
        rcases v with _ | ⟨c, _ | ⟨d, _ | ⟨e, _ | ⟨f, r⟩⟩⟩⟩ <;>
          simp [Spec.clockSpec, ha, hb, hn, and_assoc]
    · rcases v with _ | ⟨c, _ | ⟨d, _ | ⟨e, _ | ⟨f, r⟩⟩⟩⟩ <;> simp [Spec.clockSpec, ha]

theorem clockSpec_range (l : List Char) (h m : Int) (hs : Spec.clockSpec l = some (h, m)) :
    0 ≤ h ∧ h ≤ 23 ∧ 0 ≤ m ∧ m ≤ 59 := by
  rcases l with _ | ⟨a, _ | ⟨b, _ | ⟨c, _ | ⟨d, _ | ⟨e, _ | ⟨f, r⟩⟩⟩⟩⟩⟩
  · simp [Spec.clockSpec] at hs
  · simp [Spec.clockSpec] at hs
  · simp [Spec.clockSpec] at hs
  · simp [Spec.clockSpec] at hs
  · simp only [Spec.clockSpec] at hs
    split at hs
    · rename_i hc
      simp only [Bool.and_eq_true, decide_eq_true_eq] at hc
      obtain ⟨⟨⟨⟨h1, _⟩, h3⟩, h4⟩, h5⟩ := hc
      have r1 := digitVal_range h1
      have r3 := digitVal_range h3
      have r4 := digitVal_range h4
      simp only [Option.some.injEq, Prod.mk.injEq] at hs
      omega
    · simp at hs
  · simp only [Spec.clockSpec] at hs
    split at hs
    · rename_i hc
      simp only [Bool.and_eq_true, decide_eq_true_eq] at hc
      obtain ⟨⟨⟨⟨⟨⟨h1, h2⟩, _⟩, h3⟩, h4⟩, h5⟩, h6⟩ := hc
      have r1 := digitVal_range h1
      have r2 := digitVal_range h2
      have r3 := digitVal_range h3
      have r4 := digitVal_range h4
      simp only [Option.some.injEq, Prod.mk.injEq] at hs
      omega
    · simp at hs
  · simp [Spec.clockSpec] at hs

theorem ParseTimeInput_eq (s : String) :
    Timeutil.ParseTimeInput s =
      match Spec.clockSpec s.data with
      | some (h, m) => (h, m, none)
      | none => (0, 0, some "invalid time format. Expected HH:MM [24-hour format]") := by
  unfold Timeutil.ParseTimeInput
  rw [parseClock_eq]
  cases hs : Spec.clockSpec s.data with
  | none => rfl
  | some p =>
    obtain ⟨h, m⟩ := p
    obtain ⟨h0, h23, m0, m59⟩ := clockSpec_range _ _ _ hs
    obtain ⟨e1, e2⟩ := parsed_clock_fields h m h0 (by omega) m0 (by omega)
    simp only [Option.map_some', e1, e2]

end GoTime

/-! ## Lemmas: the ISO layout -/

namespace GoTime

theorem isoText_shape (year month day hour min sec : Nat) (neg : Bool) (oh om : Nat) :
    Spec.isISOShape (Spec.isoText year month day hour min sec neg oh om) = true := by
  cases neg <;>
    simp [Spec.isoText, Spec.twoDigits, Spec.isISOShape, GoStrings.isDigit_digitChar]

/-- The layout on fields in their calendar ranges, digit by digit. -/
theorem layoutISO_eq (year month day hour min sec offset : Int)
    (hy0 : 0 ≤ year) (hy : year ≤ 9999) (hm0 : 0 ≤ month) (hm : month < 100)
    (hd0 : 0 ≤ day) (hd : day < 100) (hh0 : 0 ≤ hour) (hh : hour < 100)
    (hmi0 : 0 ≤ min) (hmi : min < 100) (hs0 : 0 ≤ sec) (hs : sec < 100)
    (ho : offset.natAbs < 360000) :
    layoutISO year month day hour min sec offset
      = Spec.isoText year.toNat month.toNat day.toNat hour.toNat min.toNat sec.toNat
          (decide (offset ≤ -60)) (offset.natAbs / 3600) (offset.natAbs / 60 % 60) := by
  have hz : Int.tdiv offset 60 = if offset < 0 then -(((offset.natAbs / 60 : Nat) : Int))
      else ((offset.natAbs / 60 : Nat) : Int) := by
    by_cases hneg : offset < 0
    · have e : offset = -((offset.natAbs : Nat) : Int) := by omega
      rw [if_pos hneg]
      conv_lhs => rw [e]
      rw [Int.neg_tdiv, Int.tdiv_eq_ediv (by omega) (by omega)]
      norm_cast
    · have e : offset = ((offset.natAbs : Nat) : Int) := by omega
      rw [if_neg hneg]
      conv_lhs => rw [e]
      rw [Int.tdiv_eq_ediv (by omega) (by omega)]
      norm_cast
  have hsign : (Int.tdiv offset 60 < 0) ↔ offset ≤ -60 := by
    rw [hz]
    split <;> omega
  have habs : (if Int.tdiv offset 60 < 0 then -(Int.tdiv offset 60) else Int.tdiv offset 60)
      = ((offset.natAbs / 60 : Nat) : Int) := by
    rw [hz]
    split <;> split <;> omega
  simp only [layoutISO, habs]
  rw [GoStrings.appendInt_four hy0 (by omega), GoStrings.appendInt_two hm0 hm,
    GoStrings.appendInt_two hd0 hd, GoStrings.appendInt_two hh0 hh,
    GoStrings.appendInt_two hmi0 hmi, GoStrings.appendInt_two hs0 hs,
    GoStrings.appendInt_two (by omega) (by omega), GoStrings.appendInt_two (by omega) (by omega)]
  have e1 : (((offset.natAbs / 60 : Nat) : Int) / 60).toNat = offset.natAbs / 3600 := by omega
  have e2 : (((offset.natAbs / 60 : Nat) : Int) % 60).toNat = offset.natAbs / 60 % 60 := by omega
  rw [e1, e2]
  by_cases hs60 : offset ≤ -60
  · have : Int.tdiv offset 60 < 0 := hsign.mpr hs60
    simp [Spec.isoText, Spec.twoDigits, this, hs60]
  · have : ¬ Int.tdiv offset 60 < 0 := fun h => hs60 (hsign.mp h)
    simp [Spec.isoText, Spec.twoDigits, this, hs60]

/-- Calendar ranges of the fields of any instant. -/
theorem field_ranges (t : Time) :
    1 ≤ t.Month ∧ t.Month ≤ 12 ∧ 1 ≤ t.Day ∧ t.Day ≤ 31 ∧ 0 ≤ t.Hour ∧ t.Hour ≤ 23 ∧
    0 ≤ t.Minute ∧ t.Minute ≤ 59 ∧ 0 ≤ t.Second ∧ t.Second ≤ 59 := by
  obtain ⟨m1, m12, d1, d31, _⟩ := absDate_spec t.abs
  refine ⟨m1, m12, d1, d31, ?_⟩
  simp only [Time.Hour, Time.Minute, Time.Second]
  omega

end GoTime

/-! ## Lemmas: float64 arithmetic and fixed-point printing -/

namespace GoFloat

theorem wrapInt64_id {x : Int} (h0 : -9223372036854775808 ≤ x) (h1 : x < 9223372036854775808) :
    wrapInt64 x = x := by
  unfold wrapInt64
  omega

theorem bitLen_le : ∀ (fuel n j : Nat), n < 2 ^ j → bitLen fuel n ≤ j := by
  intro fuel
  induction fuel with
  | zero => intro n j _; simp [bitLen]
  | succ f ih =>
    intro n j hn
    by_cases h0 : n = 0
    · simp [bitLen, h0]
    · cases j with
      | zero => simp at hn; exact absurd hn h0
      | succ j =>
        have h2 : n / 2 < 2 ^ j := by
          rw [pow_succ] at hn
          omega
        have := ih (n / 2) j h2
        simp only [bitLen, h0, if_false]
        omega

theorem bits_le {n j : Nat} (h : n < 2 ^ j) : bits n ≤ j := bitLen_le n n j h

theorem roundHalfEven_one (n : Nat) : roundHalfEven n 1 = n := by
  have h : n % 1 = 0 := Nat.mod_one n
  simp [roundHalfEven, h]

/-- Rounding to nearest is within half a unit of the exact quotient. -/
theorem roundHalfEven_near (a b : Nat) (hb : 0 < b) :
    2 * a ≤ 2 * (roundHalfEven a b * b) + b ∧ 2 * (roundHalfEven a b * b) ≤ 2 * a + b := by
  have hdm := Nat.div_add_mod a b
  have hr := Nat.mod_lt a hb
  have hmul : (a / b + 1) * b = b * (a / b) + b := by ring
  have hmul0 : a / b * b = b * (a / b) := by ring
  unfold roundHalfEven
  simp only []
  split
  · rw [hmul0]; omega
  · split
    · rw [hmul]; omega
    · split
      · rw [hmul0]; omega
      · rw [hmul]; omega

/-- Rounding is exact on an exact quotient. -/
theorem roundHalfEven_exact (q b : Nat) (hb : 0 < b) : roundHalfEven (q * b) b = q := by
  have h1 : q * b / b = q := Nat.mul_div_cancel q hb
  have h2 : q * b % b = 0 := Nat.mul_mod_left q b
  simp [roundHalfEven, h1, h2, hb]

theorem ofInt_small {x : Int} (h : x.natAbs < 2 ^ 53) :
    ofInt x = ⟨decide (x < 0), x.natAbs, 0⟩ := by
  have hb : bits x.natAbs - 53 = 0 := by
    have := bits_le h
    omega
  simp [ofInt, hb, roundHalfEven_one]

theorem bits_3600 : bits 3600 = 12 := by decide

/-- Division by 3600.0 of an integer-valued float below 2^53: the quotient keeps at
least eleven binary places. -/
theorem divNat_small (neg : Bool) (a : Nat) (ha0 : 0 < a) (ha : a < 2 ^ 53) :
    ∃ s : Nat, 11 ≤ s ∧
      divNat ⟨neg, a, 0⟩ 3600 = ⟨neg, roundHalfEven (a * 2 ^ s) 3600, s⟩ := by
  have hba : bits a ≤ 53 := bits_le ha
  have hne : a ≠ 0 := by omega
  unfold divNat
  simp only [hne, if_false, pow_zero, Nat.mul_one, bits_3600]
  generalize hfl : (if a * 2 ^ (-((bits a : Int) - ((12 : Nat) : Int))).toNat
      ≥ 3600 * 2 ^ ((bits a : Int) - ((12 : Nat) : Int)).toNat
    then (bits a : Int) - ((12 : Nat) : Int) else (bits a : Int) - ((12 : Nat) : Int) - 1) = fl
  have hfl41 : fl ≤ 41 := by
    rw [← hfl]
    split <;> omega
  refine ⟨(-(fl - 52)).toNat, by omega, ?_⟩
  have e0 : (fl - 52).toNat = 0 := by omega
  simp [e0]

end GoFloat

namespace GoStrings

theorem trimRight_append_ne (l : List Char) {c x : Char} (h : c ≠ x) :
    trimRight (l ++ [c]) x = l ++ [c] := by
  have hb : (c == x) = false := by simpa using h
  simp [trimRight, List.dropWhile, hb]

theorem trimRight_append_eq (l : List Char) (x : Char) :
    trimRight (l ++ [x]) x = trimRight l x := by
  simp [trimRight, List.dropWhile]

theorem digitChar_ne_dot (n : Nat) : digitChar n ≠ '.' := by
  unfold digitChar
  split <;> decide

theorem digitChar_ne_zero {n : Nat} (h : n ≠ 0) : digitChar n ≠ '0' := by
  unfold digitChar
  split <;> first | decide | (exact absurd rfl h)

theorem digitChar_zero : digitChar 0 = '0' := rfl

theorem dropWhile_digits (l r : List Char) (x : Char)
    (hl : ∀ c ∈ l, Spec.isDigitChar c = true) (hx : Spec.isDigitChar x = false) :
    (l ++ x :: r).dropWhile Spec.isDigitChar = x :: r := by
  induction l with
  | nil => simp [List.dropWhile, hx]
  | cons a l ih =>
    have ha : Spec.isDigitChar a = true := hl a (List.mem_cons_self a l)
    have ih' := ih (fun c hc => hl c (List.mem_cons_of_mem a hc))
    simp [List.dropWhile_cons, ha, ih']

theorem takeWhile_digits (l r : List Char) (x : Char)
    (hl : ∀ c ∈ l, Spec.isDigitChar c = true) (hx : Spec.isDigitChar x = false) :
    (l ++ x :: r).takeWhile Spec.isDigitChar = l := by
  induction l with
  | nil => simp [List.takeWhile, hx]
  | cons a l ih =>
    have ha : Spec.isDigitChar a = true := hl a (List.mem_cons_self a l)
    have ih' := ih (fun c hc => hl c (List.mem_cons_of_mem a hc))
    simp [List.takeWhile_cons, ha, ih']

/-- A sign, digits, a point, digits and `h` match `^[+-]\d+\.\d+h$`. -/
theorem isDiffShape_parts (sg : Char) (ip fp : List Char) (hsg : sg = '+' ∨ sg = '-')
    (hip : ip ≠ []) (hipd : ∀ c ∈ ip, Spec.isDigitChar c = true)
    (hfp : fp ≠ []) (hfpd : ∀ c ∈ fp, Spec.isDigitChar c = true) :
    Spec.isDiffShape ([sg] ++ ip ++ ['.'] ++ fp ++ ['h']) = true := by
  have e : [sg] ++ ip ++ ['.'] ++ fp ++ ['h'] = sg :: (ip ++ '.' :: (fp ++ 'h' :: [])) := by
    simp
  rw [e]
  have hdot : Spec.isDigitChar '.' = false := by decide
  have hh : Spec.isDigitChar 'h' = false := by decide
  simp only [Spec.isDiffShape, dropWhile_digits ip _ '.' hipd hdot,
    takeWhile_digits ip _ '.' hipd hdot, dropWhile_digits fp _ 'h' hfpd hh,
    takeWhile_digits fp _ 'h' hfpd hh]
  rcases hsg with h | h <;> subst h <;> simp [hip, hfp]

theorem strippedHundredths_digits (f : Nat) :
    ∀ c ∈ Spec.strippedHundredths f, Spec.isDigitChar c = true := by
  intro c hc
  unfold Spec.strippedHundredths at hc
  split at hc <;> simp at hc
  · subst hc; exact isDigit_digitChar _
  · rcases hc with h | h <;> subst h <;> exact isDigit_digitChar _

end GoStrings

namespace Timeutil

open GoFloat GoStrings

/-- `FormatTimeDifference` on a non-zero difference below 2^53 in magnitude: the hours
are the float `m / 2^sh` with at least eleven binary places, `m` being the difference
times `2^sh / 3600` rounded to nearest. -/
theorem FormatTimeDifference_small (s t : Int) (hlt : (t - s).natAbs < 2 ^ 53)
    (hne : t - s ≠ 0) :
    ∃ sh : Nat, 11 ≤ sh ∧
      FormatTimeDifference s t =
        (if roundHalfEven ((t - s).natAbs * 2 ^ sh) 3600 % 2 ^ sh = 0 then
          String.mk (fmtPlusFixed 1
            ⟨decide (t - s < 0), roundHalfEven ((t - s).natAbs * 2 ^ sh) 3600, sh⟩ ++ ['h'])
        else
          String.mk (trimRight (trimRight (fmtPlusFixed 2
            ⟨decide (t - s < 0), roundHalfEven ((t - s).natAbs * 2 ^ sh) 3600, sh⟩) '0') '.'
              ++ ['h'])) := by
  have hw : wrapInt64 (t - s) = t - s := by
    have : (2 : Nat) ^ 53 = 9007199254740992 := by norm_num
    apply wrapInt64_id <;> omega
  obtain ⟨sh, hsh, hdiv⟩ := divNat_small (decide (t - s < 0)) (t - s).natAbs (by omega) hlt
  refine ⟨sh, hsh, ?_⟩
  unfold FormatTimeDifference
  simp only [hw, ofInt_small hlt, hdiv, mod1, isZero, beq_iff_eq]

theorem FormatTimeDifference_zero (s : Int) : FormatTimeDifference s s = "+0.0h" := by
  unfold FormatTimeDifference
  have h0 : wrapInt64 (s - s) = 0 := by simp [wrapInt64]
  rw [h0]
  decide

end Timeutil

namespace Timeutil

open GoFloat GoStrings

theorem fmtPlusFixed_sign (prec : Nat) (d : Int) (m sh : Nat) :
    fmtPlusFixed prec ⟨decide (d < 0), m, sh⟩
      = [Spec.signChar d]
        ++ decimal (roundHalfEven (m * 10 ^ prec) (2 ^ sh) / 10 ^ prec) ++ ['.']
        ++ zeroPad prec (decimal (roundHalfEven (m * 10 ^ prec) (2 ^ sh) % 10 ^ prec)) := by
  unfold fmtPlusFixed Spec.signChar
  by_cases h : d < 0 <;> simp [h]

/-- Whole hours, below 2^53 seconds: sign, the hour count, `.0h`. -/
theorem FormatTimeDifference_whole (s t : Int) (hlt : (t - s).natAbs < 2 ^ 53)
    (hw : (t - s) % 3600 = 0) :
    FormatTimeDifference s t
      = String.mk ([Spec.signChar (t - s)] ++ decimal ((t - s).natAbs / 3600)
          ++ ['.', '0', 'h']) := by
  by_cases hne : t - s = 0
  · have e : t = s := by omega
    subst e
    rw [FormatTimeDifference_zero]
    simp only [sub_self]
    decide
  · obtain ⟨sh, _, heq⟩ := FormatTimeDifference_small s t hlt hne
    rw [heq]
    generalize hk : (t - s).natAbs / 3600 = k
    have ha : (t - s).natAbs = k * 3600 := by omega
    have hP : 0 < 2 ^ sh := Nat.pow_pos (by norm_num)
    have e1 : (t - s).natAbs * 2 ^ sh = (k * 2 ^ sh) * 3600 := by rw [ha]; ring
    have hm : roundHalfEven ((t - s).natAbs * 2 ^ sh) 3600 = k * 2 ^ sh := by
      rw [e1]; exact roundHalfEven_exact _ _ (by norm_num)
    have hmod : k * 2 ^ sh % 2 ^ sh = 0 := Nat.mul_mod_left k _
    have e2 : k * 2 ^ sh * 10 ^ 1 = (k * 10) * 2 ^ sh := by ring
    have hn : roundHalfEven (k * 2 ^ sh * 10 ^ 1) (2 ^ sh) = k * 10 := by
      rw [e2]; exact roundHalfEven_exact _ _ hP
    have e3 : k * 10 / 10 ^ 1 = k := by omega
    have e4 : k * 10 % 10 ^ 1 = 0 := by omega
    rw [hm, if_pos hmod, fmtPlusFixed_sign, hn, e3, e4]
    simp [zeroPad, decimal_lt_ten, digitChar_zero]

end Timeutil

namespace Timeutil

open GoFloat GoStrings

/-- The arithmetic behind the fractional branch: with at least eleven binary places the
two roundings (to the float, then to hundredths) cannot reach a whole hour, and they are
exact on whole hundredths of an hour. -/
theorem frac_core (a P : Nat) (hP : 2048 ≤ P) (hr : 18 < a % 3600) (hr2 : a % 3600 < 3582) :
    roundHalfEven (a * P) 3600 % P ≠ 0 ∧
    100 * (a / 3600) + 1 ≤ roundHalfEven (roundHalfEven (a * P) 3600 * 100) P ∧
    roundHalfEven (roundHalfEven (a * P) 3600 * 100) P ≤ 100 * (a / 3600) + 99 ∧
    (a % 36 = 0 → roundHalfEven (roundHalfEven (a * P) 3600 * 100) P = a / 36) := by
  obtain ⟨hm1, hm2⟩ := roundHalfEven_near (a * P) 3600 (by norm_num)
  generalize roundHalfEven (a * P) 3600 = m at *
  obtain ⟨hn1, hn2⟩ := roundHalfEven_near (m * 100) P (by omega)
  generalize roundHalfEven (m * 100) P = n at *
  generalize hk : a / 3600 = k
  generalize hrr : a % 3600 = r at *
  have ha : a = 3600 * k + r := by omega
  have haP : a * P = 3600 * (k * P) + r * P := by rw [ha]; ring
  have hY1 : 19 * P ≤ r * P := Nat.mul_le_mul_right P (by omega)
  have hY2 : r * P ≤ 3581 * P := Nat.mul_le_mul_right P (by omega)
  have haP' : a * P = 3600 * (k * P) + r * P := haP
  rw [haP] at hm1 hm2
  generalize hX : k * P = X at *
  generalize hY : r * P = Y at *
  refine ⟨?_, ?_, ?_, ?_⟩
  · intro hmod
    have hdm := Nat.div_add_mod m P
    rw [hmod] at hdm
    by_cases hj : m / P ≤ k
    · have h1 : P * (m / P) ≤ P * k := Nat.mul_le_mul_left P hj
      have h2 : P * k = X := by rw [← hX]; ring
      omega
    · have h1 : P * (k + 1) ≤ P * (m / P) := Nat.mul_le_mul_left P (by omega)
      have h2 : P * (k + 1) = X + P := by rw [← hX]; ring
      omega
  · by_contra hc
    have h1 : n * P ≤ (100 * k) * P := Nat.mul_le_mul_right P (by omega)
    have h2 : (100 * k) * P = 100 * X := by rw [← hX]; ring
    omega
  · by_contra hc
    have h1 : (100 * k + 100) * P ≤ n * P := Nat.mul_le_mul_right P (by omega)
    have h2 : (100 * k + 100) * P = 100 * X + 100 * P := by rw [← hX]; ring
    omega
  · intro h36
    generalize hw : a / 36 = w
    have hw36 : a = 36 * w := by omega
    have hWP : 3600 * X + Y = 36 * (w * P) := by
      rw [← haP, hw36]; ring
    rcases Nat.lt_trichotomy n w with hlt | heq | hgt
    · have h1 : (n + 1) * P ≤ w * P := Nat.mul_le_mul_right P (by omega)
      have h2 : (n + 1) * P = n * P + P := by ring
      omega
    · exact heq
    · have h1 : (w + 1) * P ≤ n * P := Nat.mul_le_mul_right P (by omega)
      have h2 : (w + 1) * P = w * P + P := by ring
      omega

end Timeutil

namespace Timeutil

open GoFloat GoStrings

theorem trim_hundredths (pre : List Char) (f : Nat) (h1 : 1 ≤ f) (h99 : f ≤ 99) :
    trimRight (trimRight (pre ++ ['.'] ++ zeroPad 2 (decimal f)) '0') '.'
      = pre ++ ['.'] ++ Spec.strippedHundredths f := by
  rw [zeroPad_two (by omega)]
  unfold Spec.strippedHundredths
  by_cases h0 : f % 10 = 0
  · have hq : f / 10 ≠ 0 := by omega
    have e : pre ++ ['.'] ++ [digitChar (f / 10), digitChar (f % 10)]
        = (pre ++ ['.'] ++ [digitChar (f / 10)]) ++ ['0'] := by
      rw [h0, digitChar_zero]; simp
    rw [e, trimRight_append_eq, if_pos h0, trimRight_append_ne _ (digitChar_ne_zero hq),
      trimRight_append_ne _ (digitChar_ne_dot _)]
  · have e : pre ++ ['.'] ++ [digitChar (f / 10), digitChar (f % 10)]
        = (pre ++ ['.'] ++ [digitChar (f / 10)]) ++ [digitChar (f % 10)] := by simp
    rw [if_neg h0, e, trimRight_append_ne _ (digitChar_ne_zero h0),
      trimRight_append_ne _ (digitChar_ne_dot _)]

/-- Fractional hours, below 2^53 seconds and more than 18 seconds away from a whole
hour: sign, whole hours, a point and the hundredths with a trailing zero stripped. -/
theorem FormatTimeDifference_frac (s t : Int) (hlt : (t - s).natAbs < 2 ^ 53)
    (hr : 18 < (t - s).natAbs % 3600) (hr2 : (t - s).natAbs % 3600 < 3582) :
    ∃ f : Nat, 1 ≤ f ∧ f ≤ 99 ∧
      ((t - s).natAbs % 36 = 0 → f = (t - s).natAbs % 3600 / 36) ∧
      FormatTimeDifference s t
        = String.mk ([Spec.signChar (t - s)] ++ decimal ((t - s).natAbs / 3600) ++ ['.']
            ++ Spec.strippedHundredths f ++ ['h']) := by
  have hne : t - s ≠ 0 := by
    intro h
    rw [h] at hr
    simp at hr
  obtain ⟨sh, hsh, heq⟩ := FormatTimeDifference_small s t hlt hne
  have hP : 2048 ≤ 2 ^ sh := by
    calc 2048 = 2 ^ 11 := by norm_num
      _ ≤ 2 ^ sh := Nat.pow_le_pow_right (by norm_num) hsh
  obtain ⟨hmod, hlo, hhi, h36⟩ := frac_core (t - s).natAbs (2 ^ sh) hP hr hr2
  rw [heq, if_neg hmod, fmtPlusFixed_sign]
  generalize roundHalfEven (roundHalfEven ((t - s).natAbs * 2 ^ sh) 3600 * 10 ^ 2) (2 ^ sh)
    = n at *
  have hlo' : 100 * ((t - s).natAbs / 3600) + 1 ≤ n := hlo
  have hhi' : n ≤ 100 * ((t - s).natAbs / 3600) + 99 := hhi
  refine ⟨n % 100, by omega, by omega, ?_, ?_⟩
  · intro h
    have := h36 h
    omega
  · have e1 : n / 10 ^ 2 = (t - s).natAbs / 3600 := by omega
    have e2 : n % 10 ^ 2 = n % 100 := by norm_num
    rw [e1, e2, trim_hundredths _ _ (by omega) (by omega)]

end Timeutil

namespace GoTime

theorem Date_loc (year month day hour min sec nsec : Int) (loc : Location) :
    (Date year month day hour min sec nsec loc).loc = loc := rfl

theorem Time.In_sec (t : Time) (loc : Location) : (t.In loc).sec = t.sec := rfl

theorem Time.In_loc (t : Time) (loc : Location) : (t.In loc).loc = loc := rfl

end GoTime

namespace Handlers

open GoTime Types

/-- The steps of `ConvertTime` in order: validation, parsing, the source zone, the target
zone, and the result assembled from the two instants. -/
theorem ConvertTime_cases (w : World) (input : ConvertTimeInput) :
    ConvertTime w input =
      if input.SourceTimezone = "" then
        some (TimeConversionResult.zero, some "source_timezone is required")
      else if input.TargetTimezone = "" then
        some (TimeConversionResult.zero, some "target_timezone is required")
      else if input.Time = "" then
        some (TimeConversionResult.zero, some "time is required")
      else
        match Spec.clockSpec input.Time.data with
        | none => some (TimeConversionResult.zero,
            some "invalid time format. Expected HH:MM [24-hour format]")
        | some (hour, minute) =>
          match LoadLocation w input.SourceTimezone with
          | .error err => some (TimeConversionResult.zero,
              some ("invalid source timezone " ++ w.quote input.SourceTimezone ++ ": "
                ++ ("unknown timezone " ++ w.quote input.SourceTimezone ++ ": " ++ err)))
          | .ok locFrom =>
            match LoadLocation w input.TargetTimezone with
            | .error err => some (TimeConversionResult.zero,
                some ("invalid target timezone " ++ w.quote input.TargetTimezone ++ ": " ++ err))
            | .ok locTo =>
              let today := (Now w).In locFrom
              let sourceTime := Date today.Year today.Month today.Day hour minute 0 0 locFrom
              let targetTime := sourceTime.In locTo
              some ({ Source := Timeutil.BuildTimeResult sourceTime input.SourceTimezone
                      Target := Timeutil.BuildTimeResult targetTime input.TargetTimezone
                      TimeDifference :=
                        Timeutil.FormatTimeDifference sourceTime.zoneOffset
                          targetTime.zoneOffset }, none) := by
  unfold ConvertTime Timeutil.ValidateConvertTimeInput
  by_cases h1 : input.SourceTimezone = ""
  · simp [h1]
  · by_cases h2 : input.TargetTimezone = ""
    · simp [h1, h2]
    · by_cases h3 : input.Time = ""
      · simp [h1, h2, h3]
      · simp only [h1, h2, h3, if_false]
        rw [GoTime.ParseTimeInput_eq]
        cases hc : Spec.clockSpec input.Time.data with
        | none => rfl
        | some p =>
          obtain ⟨hour, minute⟩ := p
          simp only [Timezone.GetNowInLocation, h1, if_false]
          cases hl : LoadLocation w input.SourceTimezone with
          | error err => rfl
          | ok locFrom =>
            simp only []
            cases hl2 : LoadLocation w input.TargetTimezone with
            | error err => rfl
            | ok locTo => rfl

end Handlers

/-- The layout of an instant with a four-digit year has the spec's `datetime` shape. -/
theorem FormatISOSeconds_shape_aux (t : GoTime.Time) (hy0 : 0 ≤ t.Year) (hy : t.Year ≤ 9999)
    (ho : t.zoneOffset.natAbs < 360000) :
    Spec.isISOShape (Timezone.FormatISOSeconds t).data = true := by
  obtain ⟨m1, m12, d1, d31, h0, h23, mi0, mi59, s0, s59⟩ := GoTime.field_ranges t
  unfold Timezone.FormatISOSeconds GoTime.formatISO
  rw [GoTime.layoutISO_eq _ _ _ _ _ _ _ hy0 hy (by omega) (by omega) (by omega) (by omega)
    h0 (by omega) mi0 (by omega) s0 (by omega) ho]
  exact GoTime.isoText_shape _ _ _ _ _ _ _ _ _

/-! ## Lemmas: reading back a rendered timestamp -/

namespace GoTime

theorem digitVal_digitChar {n : Nat} (h : n < 10) : digitVal (GoStrings.digitChar n) = n := by
  interval_cases n <;> rfl

theorem daysIn_leap (m year : Int) : daysIn m year = daysIn m (if isLeap year then 4 else 1) := by
  unfold daysIn
  cases h : isLeap year <;> simp [isLeap]

set_option maxRecDepth 100000 in
theorem monthDay_daysIn_table : ∀ year ∈ [(1 : Int), 4], ∀ n : Fin 366,
    (n.val : Int) < (if isLeap year then 366 else 365) →
      (monthDay year n.val).2 ≤ daysIn (monthDay year n.val).1 year := by
  decide

/-- The day of the month never exceeds the length of the month. -/
theorem absDate_day_le (a : Int) : (absDate a).2.2 ≤ daysIn (absDate a).2.1 (absDate a).1 := by
  obtain ⟨_, h0, h1⟩ := absYear_roundtrip (a / 86400)
  simp only [absDate]
  generalize (absYear (a / 86400)).1 = year at *
  generalize (absYear (a / 86400)).2 = yday at *
  rw [monthDay_leap, daysIn_leap]
  have hn : yday.toNat < 366 := by split at h1 <;> omega
  have hv : ((⟨yday.toNat, hn⟩ : Fin 366).val : Int) = yday := by
    simp only [Int.toNat_of_nonneg h0]
  cases hl : isLeap year
  · have := monthDay_daysIn_table 1 (by simp) ⟨yday.toNat, hn⟩
    rw [hv] at this
    simp only [hl] at h1
    exact this (by simpa [isLeap] using h1)
  · have := monthDay_daysIn_table 4 (by simp) ⟨yday.toNat, hn⟩
    rw [hv] at this
    simp only [hl] at h1
    exact this (by simpa [isLeap] using h1)

theorem getnum_twoDigits (n : Nat) (h : n < 100) (fixed : Bool) (rest : List Char) :
    getnum (GoStrings.digitChar (n / 10) :: GoStrings.digitChar (n % 10) :: rest) fixed
      = some ((n : Int), rest) := by
  have e : digitVal (GoStrings.digitChar (n / 10)) * 10 + digitVal (GoStrings.digitChar (n % 10))
      = (n : Int) := by
    rw [digitVal_digitChar (by omega), digitVal_digitChar (by omega)]
    omega
  cases fixed
  · rw [getnum_free]
    simp only [GoStrings.isDigit_digitChar, if_true, e]
  · rw [getnum_fixed]
    simp only [GoStrings.isDigit_digitChar, and_self, if_true, e]

theorem parseYear_digits (y : Nat) (h : y < 10000) (rest : List Char) :
    parseYear (GoStrings.digitChar (y / 1000) :: GoStrings.digitChar (y / 100 % 10)
      :: GoStrings.digitChar (y / 10 % 10) :: GoStrings.digitChar (y % 10) :: rest)
      = some ((y : Int), rest) := by
  have e : ((digitVal (GoStrings.digitChar (y / 1000)) * 10
      + digitVal (GoStrings.digitChar (y / 100 % 10))) * 10
      + digitVal (GoStrings.digitChar (y / 10 % 10))) * 10
      + digitVal (GoStrings.digitChar (y % 10)) = (y : Int) := by
    rw [digitVal_digitChar (by omega), digitVal_digitChar (by omega),
      digitVal_digitChar (by omega), digitVal_digitChar (by omega)]
    omega
  have d0 : ∀ (a : Char) (l : List Char), isDigit (a :: l) 0 = Spec.isDigitChar a :=
    fun _ _ => rfl
  have d1 : ∀ (a b : Char) (l : List Char), isDigit (a :: b :: l) 1 = Spec.isDigitChar b :=
    fun _ _ _ => rfl
  have d2 : ∀ (a b c : Char) (l : List Char),
      isDigit (a :: b :: c :: l) 2 = Spec.isDigitChar c := fun _ _ _ _ => rfl
  have d3 : ∀ (a b c d : Char) (l : List Char),
      isDigit (a :: b :: c :: d :: l) 3 = Spec.isDigitChar d := fun _ _ _ _ _ => rfl
  simp only [parseYear, d0, d1, d2, d3, GoStrings.isDigit_digitChar, Bool.and_self, if_true, e]

end GoTime

namespace GoTime

theorem parseFraction_sign (c : Char) (rest : List Char) (h1 : c ≠ '.') (h2 : c ≠ ',') :
    parseFraction (c :: rest) = (0, c :: rest) := by
  simp [parseFraction, h1, h2]

theorem parseZone_offset (neg : Bool) (oh om : Nat) (hoh : oh ≤ 24) (hom : om < 60) :
    parseZone [if neg = true then '-' else '+', GoStrings.digitChar (oh / 10),
      GoStrings.digitChar (oh % 10), ':', GoStrings.digitChar (om / 10),
      GoStrings.digitChar (om % 10)]
      = some (some (if neg = true then -(((oh : Int) * 60 + om) * 60)
          else ((oh : Int) * 60 + om) * 60), []) := by
  have hzone : ¬ ((oh : Int) > 24 ∨ (om : Int) > 60) := by omega
  cases neg
  · simp [parseZone, getnum_twoDigits oh (by omega), getnum_twoDigits om (by omega), hzone]
    omega
  · simp [parseZone, getnum_twoDigits oh (by omega), getnum_twoDigits om (by omega), hzone]
    omega

/-- What `time.Parse(time.RFC3339, ..)` makes of a text `YYYY-MM-DDTHH:MM:SS±HH:MM` whose
fields are a calendar date, a time of day and an offset of at most 24 hours: the civil
reading taken as UTC, moved back by the offset, with no nanoseconds. -/
theorem Parse_isoText (w : World) (Y M D h mi s : Nat) (neg : Bool) (oh om : Nat)
    (hY : Y < 10000) (hM1 : 1 ≤ M) (hM : M ≤ 12) (hD1 : 1 ≤ D) (hD31 : D ≤ 31)
    (hD : (D : Int) ≤ daysIn M Y) (hh : h < 24) (hmi : mi < 60) (hs : s < 60)
    (hoh : oh ≤ 24) (hom : om < 60) :
    ∃ p, Parse w true (Spec.isoText Y M D h mi s neg oh om) = some p ∧
      p.sec = civilUnix Y M D h mi s
        - (if neg then -(((oh : Int) * 60 + om) * 60) else ((oh : Int) * 60 + om) * 60) ∧
      p.nsec = 0 := by
  have hdate : Date Y M D h mi s 0 UTC = ⟨civilUnix Y M D h mi s, 0, UTC⟩ := by
    rw [Date_eq Y M D h mi s 0 UTC (by omega) (by omega) (by omega) (by omega) (by omega)
      (by omega) (by omega) (by omega) (by omega) (by omega), zoneAdjust_UTC]
  have hday : ¬ ((D : Int) < 1 ∨ (D : Int) > daysIn M Y) := by omega
  have hmon : ¬ ((M : Int) ≤ 0 ∨ 12 < (M : Int)) := by omega
  have hhour : ¬ ((h : Int) < 0 ∨ 24 ≤ (h : Int)) := by omega
  have hmin : ¬ ((mi : Int) < 0 ∨ 60 ≤ (mi : Int)) := by omega
  have hsec : ¬ ((s : Int) < 0 ∨ 60 ≤ (s : Int)) := by omega
  have hzone : ¬ ((oh : Int) > 24 ∨ (om : Int) > 60) := by omega
  have hfrac : parseFraction [if neg = true then '-' else '+', GoStrings.digitChar (oh / 10),
      GoStrings.digitChar (oh % 10), ':', GoStrings.digitChar (om / 10),
      GoStrings.digitChar (om % 10)]
      = (0, [if neg = true then '-' else '+', GoStrings.digitChar (oh / 10),
      GoStrings.digitChar (oh % 10), ':', GoStrings.digitChar (om / 10),
      GoStrings.digitChar (om % 10)]) :=
    parseFraction_sign _ _ (by cases neg <;> decide) (by cases neg <;> decide)
  simp only [Spec.isoText, Spec.twoDigits, List.cons_append, List.nil_append,
    List.append_assoc, Parse, parseYear_digits Y hY, skipChar, if_true,
    getnum_twoDigits M (by omega), getnum_twoDigits D (by omega),
    getnum_twoDigits h (by omega), getnum_twoDigits mi (by omega),
    getnum_twoDigits s (by omega), hmon, hhour, hmin, hsec, if_false, hfrac,
    parseZone_offset neg oh om hoh hom, List.length_nil, ne_eq, not_true_eq_false, hday,
    hdate]
  split <;> split <;> exact ⟨_, rfl, rfl, rfl⟩

end GoTime

namespace GoTime

/-- The civil fields of an instant, taken as a UTC reading, count to its local seconds. -/
theorem civilUnix_fields (t : Time) :
    civilUnix t.Year t.Month t.Day t.Hour t.Minute t.Second = t.sec + t.zoneOffset := by
  obtain ⟨_, _, _, _, hsum⟩ := absDate_spec t.abs
  simp only [Time.Year, Time.Month, Time.Day, Time.Hour, Time.Minute, Time.Second, civilUnix,
    hsum]
  have ha : t.abs = t.sec + t.zoneOffset + unixToInternal := rfl
  omega

/-- An offset of whole minutes is its sign times its hours and minutes. -/
theorem offset_parts (off : Int) (hmin : off % 60 = 0) :
    (if decide (off ≤ -60) = true
      then -((((off.natAbs / 3600 : Nat) : Int) * 60 + ((off.natAbs / 60 % 60 : Nat) : Int)) * 60)
      else (((off.natAbs / 3600 : Nat) : Int) * 60 + ((off.natAbs / 60 % 60 : Nat) : Int)) * 60)
      = off := by
  have key : ∀ n : Nat, n % 60 = 0 →
      (((n / 3600 : Nat) : Int) * 60 + ((n / 60 % 60 : Nat) : Int)) * 60 = (n : Int) := by
    intro n hn
    have e1 : n / 3600 = n / 60 / 60 := by omega
    rw [e1]
    omega
  by_cases hs60 : off ≤ -60
  · simp only [hs60, decide_True, if_true]
    have e : off = -((off.natAbs : Nat) : Int) := by omega
    rw [key off.natAbs (by omega)]
    omega
  · simp only [hs60, decide_False, if_false]
    have e : off = ((off.natAbs : Nat) : Int) := by omega
    rw [key off.natAbs (by omega)]
    exact e.symm

/-- The repository's rendering of a whole-second instant, with a four-digit year and an
offset of whole minutes below 25 hours, is a fully-qualified timestamp of that instant:
`time.Parse(time.RFC3339, ..)` reads it back as the same second. -/
theorem isTimestampOf_FormatISOSeconds (w : World) (t : Time)
    (hy0 : 0 ≤ t.Year) (hy : t.Year ≤ 9999) (hmin : t.zoneOffset % 60 = 0)
    (ho : t.zoneOffset.natAbs < 90000) (hn : t.nsec = 0) :
    Spec.isTimestampOf w (Timezone.FormatISOSeconds t) t = true := by
  obtain ⟨m1, m12, d1, d31, h0, h23, mi0, mi59, s0, s59⟩ := field_ranges t
  have hday := absDate_day_le t.abs
  have cy : ((t.Year.toNat : Nat) : Int) = t.Year := Int.toNat_of_nonneg hy0
  have cm : ((t.Month.toNat : Nat) : Int) = t.Month := Int.toNat_of_nonneg (by omega)
  have cd : ((t.Day.toNat : Nat) : Int) = t.Day := Int.toNat_of_nonneg (by omega)
  have ch : ((t.Hour.toNat : Nat) : Int) = t.Hour := Int.toNat_of_nonneg h0
  have cmi : ((t.Minute.toNat : Nat) : Int) = t.Minute := Int.toNat_of_nonneg mi0
  have cs : ((t.Second.toNat : Nat) : Int) = t.Second := Int.toNat_of_nonneg s0
  have hD : ((t.Day.toNat : Nat) : Int) ≤ daysIn (t.Month.toNat : Nat) (t.Year.toNat : Nat) := by
    rw [cy, cm, cd]
    exact hday
  obtain ⟨p, hp, hsec, hnsec⟩ := Parse_isoText w t.Year.toNat t.Month.toNat t.Day.toNat
    t.Hour.toNat t.Minute.toNat t.Second.toNat (decide (t.zoneOffset ≤ -60))
    (t.zoneOffset.natAbs / 3600) (t.zoneOffset.natAbs / 60 % 60)
    (by omega) (by omega) (by omega) (by omega) (by omega) hD (by omega) (by omega)
    (by omega) (by omega) (by omega)
  rw [cy, cm, cd, ch, cmi, cs, civilUnix_fields] at hsec
  have hoff : (if decide (t.zoneOffset ≤ -60) = true
      then -((((t.zoneOffset.natAbs / 3600 : Nat) : Int) * 60
        + ((t.zoneOffset.natAbs / 60 % 60 : Nat) : Int)) * 60)
      else (((t.zoneOffset.natAbs / 3600 : Nat) : Int) * 60
        + ((t.zoneOffset.natAbs / 60 % 60 : Nat) : Int)) * 60) = t.zoneOffset := by
    exact offset_parts t.zoneOffset hmin
  rw [hoff] at hsec
  have hfmt : (Timezone.FormatISOSeconds t).data
      = Spec.isoText t.Year.toNat t.Month.toNat t.Day.toNat t.Hour.toNat t.Minute.toNat
          t.Second.toNat (decide (t.zoneOffset ≤ -60)) (t.zoneOffset.natAbs / 3600)
          (t.zoneOffset.natAbs / 60 % 60) := by
    unfold Timezone.FormatISOSeconds formatISO
    rw [layoutISO_eq _ _ _ _ _ _ _ hy0 hy (by omega) (by omega) (by omega) (by omega)
      h0 (by omega) mi0 (by omega) s0 (by omega) (by omega)]
  unfold Spec.isTimestampOf
  rw [hfmt, hp]
  simp only [Bool.and_eq_true, decide_eq_true_eq]
  exact ⟨by omega, by omega⟩

end GoTime

/-! ## The claims -/

/-- C1. Whenever `ConvertTime` succeeds, `Source` and `Target` are built from two instants
`sourceTime` (in the source zone) and `targetTime` (in the target zone) that are the same
absolute instant: equal Unix seconds, so that civil time minus offset agrees on both
sides; and `TimeDifference` is `FormatTimeDifference` applied to the offsets of the source
and of the target zone at that constructed instant (not at the clock reading). -/
theorem ConvertTime_same_instant (w : World) (input : Types.ConvertTimeInput)
    (r : Types.TimeConversionResult) (h : Handlers.ConvertTime w input = some (r, none)) :
    ∃ (locFrom locTo : GoTime.Location) (sourceTime targetTime : GoTime.Time),
      GoTime.LoadLocation w input.SourceTimezone = .ok locFrom ∧
      GoTime.LoadLocation w input.TargetTimezone = .ok locTo ∧
      sourceTime.loc = locFrom ∧ targetTime.loc = locTo ∧
      r.Source = Timeutil.BuildTimeResult sourceTime input.SourceTimezone ∧
      r.Target = Timeutil.BuildTimeResult targetTime input.TargetTimezone ∧
      targetTime.sec = sourceTime.sec ∧
      sourceTime.abs - sourceTime.zoneOffset = targetTime.abs - targetTime.zoneOffset ∧
      r.TimeDifference = Timeutil.FormatTimeDifference
        (locFrom.lookup sourceTime.sec).offset (locTo.lookup sourceTime.sec).offset := by
  rw [Handlers.ConvertTime_cases] at h
  split at h
  · simp at h
  split at h
  · simp at h
  split at h
  · simp at h
  split at h
  · simp at h
  rename_i hour minute _
  split at h
  · simp at h
  rename_i locFrom hFrom
  split at h
  · simp at h
  rename_i locTo hTo
  simp only [Option.some.injEq, Prod.mk.injEq, and_true] at h
  subst h
  exact ⟨locFrom, locTo, _, _, hFrom, hTo, GoTime.Date_loc _ _ _ _ _ _ _ _, rfl, rfl, rfl, rfl,
    by simp only [GoTime.Time.abs, GoTime.Time.In, GoTime.Time.zoneOffset]; ring, rfl⟩

/-- C1 at 2025-03-09T12:00:00Z: midnight UTC converted to Asia/Kathmandu. -/
theorem ConvertTime_same_instant_witness :
    ∃ (locFrom locTo : GoTime.Location) (sourceTime targetTime : GoTime.Time),
      GoTime.LoadLocation Sample.marchWorld "UTC" = .ok locFrom ∧
      GoTime.LoadLocation Sample.marchWorld "Asia/Kathmandu" = .ok locTo ∧
      sourceTime.loc = locFrom ∧ targetTime.loc = locTo ∧
      (⟨"UTC", "2025-03-09T00:00:00+00:00", "Sunday", false⟩ : Types.TimeResult)
        = Timeutil.BuildTimeResult sourceTime "UTC" ∧
      (⟨"Asia/Kathmandu", "2025-03-09T05:45:00+05:45", "Sunday", false⟩ : Types.TimeResult)
        = Timeutil.BuildTimeResult targetTime "Asia/Kathmandu" ∧
      targetTime.sec = sourceTime.sec ∧
      sourceTime.abs - sourceTime.zoneOffset = targetTime.abs - targetTime.zoneOffset ∧
      "+5.75h" = Timeutil.FormatTimeDifference
        (locFrom.lookup sourceTime.sec).offset (locTo.lookup sourceTime.sec).offset :=
  ConvertTime_same_instant Sample.marchWorld ⟨"UTC", "00:00", "Asia/Kathmandu"⟩
    ⟨⟨"UTC", "2025-03-09T00:00:00+00:00", "Sunday", false⟩,
      ⟨"Asia/Kathmandu", "2025-03-09T05:45:00+05:45", "Sunday", false⟩, "+5.75h"⟩
    (by decide)

/-- C2, counterexample. On 2025-03-09 (clock at 12:00Z) clocks in America/New_York jump
from 02:00 to 03:00.  The input time "02:30" parses to hour 2 and minute 30, today's date
in the source zone is 2025-03-09, and `ConvertTime` succeeds, yet `Source.Datetime` reads
`T01:30:00`, not `T02:30:00`: `time.Date` moved the skipped reading. -/
theorem ConvertTime_skipped_reading :
    Timeutil.ParseTimeInput "02:30" = (2, 30, none) ∧
    ((GoTime.Now Sample.marchWorld).In Sample.newYork).Year = 2025 ∧
    ((GoTime.Now Sample.marchWorld).In Sample.newYork).Month = 3 ∧
    ((GoTime.Now Sample.marchWorld).In Sample.newYork).Day = 9 ∧
    Handlers.ConvertTime Sample.marchWorld ⟨"America/New_York", "02:30", "UTC"⟩
      = some (⟨⟨"America/New_York", "2025-03-09T01:30:00-05:00", "Sunday", false⟩,
          ⟨"UTC", "2025-03-09T06:30:00+00:00", "Sunday", false⟩, "+5.0h"⟩, none) := by
  decide

/-- C2, amended. Let `ConvertTime` succeed, with the source zone `locFrom` and the parsed
`hour` and `minute`, and let `c` be today's date in the source zone at `hour:minute:00`
read as a UTC second count.  If the source zone keeps one offset at every instant within
that offset's size of `c` (no transition near the requested reading), then the source
instant reads exactly today's date in the source zone at `hour:minute:00`, and
`Source.Datetime` is that date, `T`, the two-digit hour and minute, `:00` and the source
offset. -/
theorem ConvertTime_source_reading (w : World) (input : Types.ConvertTimeInput)
    (r : Types.TimeConversionResult) (locFrom : GoTime.Location) (hour minute : Int)
    (h : Handlers.ConvertTime w input = some (r, none))
    (hloc : GoTime.LoadLocation w input.SourceTimezone = .ok locFrom)
    (hparse : Timeutil.ParseTimeInput input.Time = (hour, minute, none))
    (hsettled : ∀ u : Int,
      |u - GoTime.civilUnix ((GoTime.Now w).In locFrom).Year ((GoTime.Now w).In locFrom).Month
          ((GoTime.Now w).In locFrom).Day hour minute 0|
        ≤ |(locFrom.lookup (GoTime.civilUnix ((GoTime.Now w).In locFrom).Year
            ((GoTime.Now w).In locFrom).Month ((GoTime.Now w).In locFrom).Day hour minute 0)).offset| →
      (locFrom.lookup u).offset
        = (locFrom.lookup (GoTime.civilUnix ((GoTime.Now w).In locFrom).Year
            ((GoTime.Now w).In locFrom).Month ((GoTime.Now w).In locFrom).Day hour minute 0)).offset) :
    ∃ src : GoTime.Time, src.loc = locFrom ∧
      r.Source = Timeutil.BuildTimeResult src input.SourceTimezone ∧
      src.Year = ((GoTime.Now w).In locFrom).Year ∧
      src.Month = ((GoTime.Now w).In locFrom).Month ∧
      src.Day = ((GoTime.Now w).In locFrom).Day ∧
      src.Hour = hour ∧ src.Minute = minute ∧ src.Second = 0 ∧
      0 ≤ hour ∧ hour ≤ 23 ∧ 0 ≤ minute ∧ minute ≤ 59 ∧
      r.Source.Datetime = String.mk (GoTime.layoutISO ((GoTime.Now w).In locFrom).Year
        ((GoTime.Now w).In locFrom).Month ((GoTime.Now w).In locFrom).Day hour minute 0
        src.zoneOffset) := by
  generalize htoday : (GoTime.Now w).In locFrom = today at *
  rw [GoTime.ParseTimeInput_eq] at hparse
  rw [Handlers.ConvertTime_cases] at h
  split at h
  · simp at h
  split at h
  · simp at h
  split at h
  · simp at h
  split at h
  · simp at h
  rename_i hour' minute' hclock
  rw [hclock] at hparse
  simp only [Prod.mk.injEq, and_true] at hparse
  obtain ⟨hh, hm⟩ := hparse
  subst hh hm
  obtain ⟨h0, h23, m0, m59⟩ := GoTime.clockSpec_range _ _ _ hclock
  rw [hloc] at h
  simp only [htoday] at h
  split at h
  · simp at h
  simp only [Option.some.injEq, Prod.mk.injEq, and_true] at h
  subst h
  obtain ⟨mo1, mo12, _⟩ := GoTime.field_ranges today
  generalize hc : GoTime.civilUnix today.Year today.Month today.Day hour' minute' 0 = c at *
  have hdate : GoTime.Date today.Year today.Month today.Day hour' minute' 0 0 locFrom
      = ⟨GoTime.zoneAdjust locFrom c, 0, locFrom⟩ := by
    rw [GoTime.Date_eq _ _ _ _ _ _ _ _ mo1 mo12 h0 (by omega) m0 (by omega) (by omega)
      (by omega) (by omega) (by omega), hc]
  have hset : (locFrom.lookup (c - (locFrom.lookup c).offset)).offset
      = (locFrom.lookup c).offset := by
    apply hsettled
    rw [sub_sub_cancel_left, abs_neg]
  have hadj := GoTime.zoneAdjust_settled locFrom c hset
  have habs : (GoTime.Time.mk (GoTime.zoneAdjust locFrom c) 0 locFrom).abs
      = c + GoTime.unixToInternal := by
    simp only [GoTime.Time.abs, GoTime.Time.zoneOffset, hadj, hset]
    ring
  obtain ⟨f1, f2, f3, f4, _⟩ := GoTime.civil_fields today.abs hour' minute' 0 h0 (by omega)
    m0 (by omega) (by omega) (by omega)
  have hc' : GoTime.civilUnix (GoTime.absDate today.abs).1 (GoTime.absDate today.abs).2.1
      (GoTime.absDate today.abs).2.2 hour' minute' 0 = c := hc
  simp only [hc'] at f1 f2 f3 f4
  rw [hdate]
  refine ⟨_, rfl, rfl, ?_, ?_, ?_, ?_, ?_, ?_, h0, h23, m0, m59, ?_⟩
  · simp only [GoTime.Time.Year, habs, f1]
  · simp only [GoTime.Time.Month, habs, f1]
  · simp only [GoTime.Time.Day, habs, f1]
  · simp only [GoTime.Time.Hour, habs, f2]
  · simp only [GoTime.Time.Minute, habs, f3]
  · simp only [GoTime.Time.Second, habs, f4]
  · simp only [Timeutil.BuildTimeResult, Timezone.FormatISOSeconds, GoTime.formatISO,
      GoTime.Time.Year, GoTime.Time.Month, GoTime.Time.Day, GoTime.Time.Hour,
      GoTime.Time.Minute, GoTime.Time.Second, habs, f1, f2, f3, f4]

/-- C2, amended, at 2025-03-09T12:00:00Z: "9:30" in Asia/Kathmandu, a zone with a single
offset, reads `2025-03-09T09:30:00+05:45`. -/
theorem ConvertTime_source_reading_witness :
    ∃ src : GoTime.Time, src.loc = Sample.kathmandu ∧
      (⟨"Asia/Kathmandu", "2025-03-09T09:30:00+05:45", "Sunday", false⟩ : Types.TimeResult)
        = Timeutil.BuildTimeResult src "Asia/Kathmandu" ∧
      src.Year = ((GoTime.Now Sample.marchWorld).In Sample.kathmandu).Year ∧
      src.Month = ((GoTime.Now Sample.marchWorld).In Sample.kathmandu).Month ∧
      src.Day = ((GoTime.Now Sample.marchWorld).In Sample.kathmandu).Day ∧
      src.Hour = 9 ∧ src.Minute = 30 ∧ src.Second = 0 ∧
      (0 : Int) ≤ 9 ∧ (9 : Int) ≤ 23 ∧ (0 : Int) ≤ 30 ∧ (30 : Int) ≤ 59 ∧
      "2025-03-09T09:30:00+05:45" = String.mk (GoTime.layoutISO
        ((GoTime.Now Sample.marchWorld).In Sample.kathmandu).Year
        ((GoTime.Now Sample.marchWorld).In Sample.kathmandu).Month
        ((GoTime.Now Sample.marchWorld).In Sample.kathmandu).Day 9 30 0 src.zoneOffset) :=
  ConvertTime_source_reading Sample.marchWorld ⟨"Asia/Kathmandu", "9:30", "UTC"⟩
    ⟨⟨"Asia/Kathmandu", "2025-03-09T09:30:00+05:45", "Sunday", false⟩,
      ⟨"UTC", "2025-03-09T03:45:00+00:00", "Sunday", false⟩, "-5.75h"⟩
    Sample.kathmandu 9 30 (by decide) rfl (by decide) (fun _ _ => rfl)

/-- C3. `ConvertTime` fails exactly in four cases, reported in this order, each with the
zero `TimeConversionResult`: (a) an empty field, named in the order `source_timezone`,
`target_timezone`, `time` (MissingField); (b) `time` is not a clock string `H:MM`/`HH:MM`
with hour 0..23 and minute 0..59 (InvalidTimeFormat); (c) the source zone does not load
(UnknownTimezone, source); (d) the target zone does not load (UnknownTimezone, target).
In every other case it succeeds with a nil error. -/
theorem ConvertTime_error_order (w : World) (input : Types.ConvertTimeInput) :
    (input.SourceTimezone = "" →
      Handlers.ConvertTime w input
        = some (Types.TimeConversionResult.zero, some "source_timezone is required")) ∧
    (input.SourceTimezone ≠ "" → input.TargetTimezone = "" →
      Handlers.ConvertTime w input
        = some (Types.TimeConversionResult.zero, some "target_timezone is required")) ∧
    (input.SourceTimezone ≠ "" → input.TargetTimezone ≠ "" → input.Time = "" →
      Handlers.ConvertTime w input
        = some (Types.TimeConversionResult.zero, some "time is required")) ∧
    (input.SourceTimezone ≠ "" → input.TargetTimezone ≠ "" → input.Time ≠ "" →
      Spec.clockSpec input.Time.data = none →
      Handlers.ConvertTime w input
        = some (Types.TimeConversionResult.zero,
            some "invalid time format. Expected HH:MM [24-hour format]")) ∧
    (∀ err, input.SourceTimezone ≠ "" → input.TargetTimezone ≠ "" → input.Time ≠ "" →
      Spec.clockSpec input.Time.data ≠ none →
      GoTime.LoadLocation w input.SourceTimezone = .error err →
      Handlers.ConvertTime w input
        = some (Types.TimeConversionResult.zero,
            some ("invalid source timezone " ++ w.quote input.SourceTimezone ++ ": "
              ++ ("unknown timezone " ++ w.quote input.SourceTimezone ++ ": " ++ err)))) ∧
    (∀ locFrom err, input.SourceTimezone ≠ "" → input.TargetTimezone ≠ "" →
      input.Time ≠ "" → Spec.clockSpec input.Time.data ≠ none →
      GoTime.LoadLocation w input.SourceTimezone = .ok locFrom →
      GoTime.LoadLocation w input.TargetTimezone = .error err →
      Handlers.ConvertTime w input
        = some (Types.TimeConversionResult.zero,
            some ("invalid target timezone " ++ w.quote input.TargetTimezone ++ ": " ++ err))) ∧
    (∀ locFrom locTo, input.SourceTimezone ≠ "" → input.TargetTimezone ≠ "" →
      input.Time ≠ "" → Spec.clockSpec input.Time.data ≠ none →
      GoTime.LoadLocation w input.SourceTimezone = .ok locFrom →
      GoTime.LoadLocation w input.TargetTimezone = .ok locTo →
      ∃ r, Handlers.ConvertTime w input = some (r, none)) := by
  rw [Handlers.ConvertTime_cases]
  refine ⟨?_, ?_, ?_, ?_, ?_, ?_, ?_⟩
  · intro h1
    simp [h1]
  · intro h1 h2
    simp [h1, h2]
  · intro h1 h2 h3
    simp [h1, h2, h3]
  · intro h1 h2 h3 h4
    simp [h1, h2, h3, h4]
  · intro err h1 h2 h3 h4 h5
    obtain ⟨p, hp⟩ := Option.ne_none_iff_exists'.mp h4
    simp [h1, h2, h3, hp, h5]
  · intro locFrom err h1 h2 h3 h4 h5 h6
    obtain ⟨p, hp⟩ := Option.ne_none_iff_exists'.mp h4
    simp [h1, h2, h3, hp, h5, h6]
  · intro locFrom locTo h1 h2 h3 h4 h5 h6
    obtain ⟨p, hp⟩ := Option.ne_none_iff_exists'.mp h4
    simp [h1, h2, h3, hp, h5, h6]

/-- C4, counterexample. For the offsets 0 and 1 (a difference of one second) the hours are
0.000277..., not a whole number, so the code takes the `%+.2f` branch, prints `+0.00` and
strips the zeros and then the point: the result is `+0h`, which has no decimal point and
does not match `^[+-]\d+\.\d+h$`. -/
theorem FormatTimeDifference_one_second :
    Timeutil.FormatTimeDifference 0 1 = "+0h" ∧
    Spec.isDiffShape (Timeutil.FormatTimeDifference 0 1).data = false := by
  decide

/-- C4, amended. For offsets whose difference `d` is below 2^53 in magnitude (where
`float64` holds it exactly) and whose seconds within the hour, `|d| mod 3600`, are 0 or lie
strictly between 18 and 3582, the result is not empty and matches `^[+-]\d+\.\d+h$`: the
sign of `d`, the decimal digits of `|d| / 3600`, a point, fractional digits and `h`; the
fraction is the single digit `0` for whole hours and otherwise one or two digits of which
the last is not `0`. -/
theorem FormatTimeDifference_shape (s t : Int) (hlt : (t - s).natAbs < 2 ^ 53)
    (hr : (t - s).natAbs % 3600 = 0 ∨
      (18 < (t - s).natAbs % 3600 ∧ (t - s).natAbs % 3600 < 3582)) :
    Timeutil.FormatTimeDifference s t ≠ "" ∧
    Spec.isDiffShape (Timeutil.FormatTimeDifference s t).data = true ∧
    ∃ fp : List Char,
      Timeutil.FormatTimeDifference s t
        = String.mk ([Spec.signChar (t - s)] ++ GoStrings.decimal ((t - s).natAbs / 3600)
            ++ ['.'] ++ fp ++ ['h']) ∧
      (∀ c ∈ fp, Spec.isDigitChar c = true) ∧
      ((t - s).natAbs % 3600 = 0 → fp = ['0']) ∧
      ((t - s).natAbs % 3600 ≠ 0 →
        (fp.length = 1 ∨ fp.length = 2) ∧ fp.getLast? ≠ some '0') := by
  have hsign : Spec.signChar (t - s) = '+' ∨ Spec.signChar (t - s) = '-' := by
    unfold Spec.signChar
    split
    · exact Or.inr rfl
    · exact Or.inl rfl
  have key : ∃ fp : List Char,
      Timeutil.FormatTimeDifference s t
        = String.mk ([Spec.signChar (t - s)] ++ GoStrings.decimal ((t - s).natAbs / 3600)
            ++ ['.'] ++ fp ++ ['h']) ∧
      fp ≠ [] ∧ (∀ c ∈ fp, Spec.isDigitChar c = true) ∧
      ((t - s).natAbs % 3600 = 0 → fp = ['0']) ∧
      ((t - s).natAbs % 3600 ≠ 0 →
        (fp.length = 1 ∨ fp.length = 2) ∧ fp.getLast? ≠ some '0') := by
    rcases hr with h0 | ⟨h18, h3582⟩
    · refine ⟨['0'], ?_, by simp, by decide, fun _ => rfl, fun h => absurd h0 h⟩
      rw [Timeutil.FormatTimeDifference_whole s t hlt (by omega)]
      simp
    · obtain ⟨f, f1, f99, _, heq⟩ := Timeutil.FormatTimeDifference_frac s t hlt h18 h3582
      refine ⟨Spec.strippedHundredths f, heq, ?_, GoStrings.strippedHundredths_digits f,
        fun h => by omega, fun _ => ?_⟩
      · unfold Spec.strippedHundredths
        split <;> simp
      · unfold Spec.strippedHundredths
        by_cases h10 : f % 10 = 0
        · have hq : f / 10 ≠ 0 := by omega
          simp [h10, GoStrings.digitChar_ne_zero hq]
        · simp [h10, GoStrings.digitChar_ne_zero h10]
  obtain ⟨fp, heq, hne, hdig, hwhole, hfrac⟩ := key
  refine ⟨?_, ?_, fp, heq, hdig, hwhole, hfrac⟩
  · rw [heq]
    intro h
    have := congrArg String.data h
    simp at this
  · rw [heq]
    exact GoStrings.isDiffShape_parts _ _ _ hsign (GoStrings.decimal_ne_nil _)
      (GoStrings.decimal_digits _) hne hdig

/-- C4, amended, at the offsets of UTC and Asia/Kathmandu. -/
theorem FormatTimeDifference_shape_witness :
    Timeutil.FormatTimeDifference 0 20700 ≠ "" ∧
    Spec.isDiffShape (Timeutil.FormatTimeDifference 0 20700).data = true ∧
    ∃ fp : List Char,
      Timeutil.FormatTimeDifference 0 20700
        = String.mk ([Spec.signChar (20700 - 0)]
            ++ GoStrings.decimal ((20700 - 0 : Int).natAbs / 3600) ++ ['.'] ++ fp ++ ['h']) ∧
      (∀ c ∈ fp, Spec.isDigitChar c = true) ∧
      ((20700 - 0 : Int).natAbs % 3600 = 0 → fp = ['0']) ∧
      ((20700 - 0 : Int).natAbs % 3600 ≠ 0 →
        (fp.length = 1 ∨ fp.length = 2) ∧ fp.getLast? ≠ some '0') :=
  FormatTimeDifference_shape 0 20700 (by decide) (by decide)

/-- C5, counterexample. The offsets 0 and 180000000000003600 differ by exactly
50000000000001 hours, but `float64` keeps only 53 bits: the difference converts to
180000000000003584, the quotient by 3600.0 is the float 50000000000000.9921875, which is
not whole, and the result is `+50000000000000.99h` instead of `+50000000000001.0h`. -/
theorem FormatTimeDifference_whole_hours_beyond_float :
    (180000000000003600 - 0 : Int) % 3600 = 0 ∧
    (180000000000003600 - 0 : Int) / 3600 = 50000000000001 ∧
    Timeutil.FormatTimeDifference 0 180000000000003600 = "+50000000000000.99h" := by
  decide

/-- C5, amended. For offsets whose difference `d` is a multiple of 3600 below 2^53 in
magnitude, the result is the sign (`+` when `d ≥ 0`, zero included, `-` when `d < 0`), the
decimal digits of `|d| / 3600`, and `.0h`. -/
theorem FormatTimeDifference_whole_hours (s t : Int) (hlt : (t - s).natAbs < 2 ^ 53)
    (hw : (t - s) % 3600 = 0) :
    Timeutil.FormatTimeDifference s t
      = String.mk ([if t - s < 0 then '-' else '+']
          ++ GoStrings.decimal ((t - s).natAbs / 3600) ++ ['.', '0', 'h']) :=
  Timeutil.FormatTimeDifference_whole s t hlt hw

/-- C5, amended, on the examples of the claim: `+1.0h`, `-1.0h` and `+0.0h`. -/
theorem FormatTimeDifference_whole_hours_witness :
    Timeutil.FormatTimeDifference 0 3600 = "+1.0h" ∧
    Timeutil.FormatTimeDifference 3600 0 = "-1.0h" ∧
    Timeutil.FormatTimeDifference 0 0 = "+0.0h" :=
  ⟨(FormatTimeDifference_whole_hours 0 3600 (by decide) (by decide)).trans (by decide),
   (FormatTimeDifference_whole_hours 3600 0 (by decide) (by decide)).trans (by decide),
   (FormatTimeDifference_whole_hours 0 0 (by decide) (by decide)).trans (by decide)⟩

/-- C6, counterexample. The offsets 0 and 1800000000000000900 differ by 500000000000000
hours and a quarter, but the difference converts to the float 1800000000000001024 and the
quotient by 3600.0 is the float 500000000000000.3125: the result is
`+500000000000000.31h` instead of `+500000000000000.25h`. -/
theorem FormatTimeDifference_quarter_beyond_float :
    (1800000000000000900 - 0 : Int) % 900 = 0 ∧
    (1800000000000000900 - 0 : Int).natAbs % 3600 = 900 ∧
    (1800000000000000900 - 0 : Int).natAbs / 3600 = 500000000000000 ∧
    Timeutil.FormatTimeDifference 0 1800000000000000900 = "+500000000000000.31h" := by
  decide

/-- C6, amended. For offsets whose difference `d` is a multiple of 900 but not of 3600,
below 2^53 in magnitude, the result is the sign of `d`, the decimal digits of
`|d| / 3600`, a point, `25`, `5` or `75` according to whether `|d| mod 3600` is 900, 1800
or 2700, and `h`. -/
theorem FormatTimeDifference_quarter_hours (s t : Int) (hlt : (t - s).natAbs < 2 ^ 53)
    (hq : (t - s) % 900 = 0) (hnw : (t - s) % 3600 ≠ 0) :
    Timeutil.FormatTimeDifference s t
      = String.mk ([if t - s < 0 then '-' else '+']
          ++ GoStrings.decimal ((t - s).natAbs / 3600) ++ ['.']
          ++ (if (t - s).natAbs % 3600 = 900 then ['2', '5']
              else if (t - s).natAbs % 3600 = 1800 then ['5'] else ['7', '5'])
          ++ ['h']) := by
  have hr : (t - s).natAbs % 3600 = 900 ∨ (t - s).natAbs % 3600 = 1800
      ∨ (t - s).natAbs % 3600 = 2700 := by omega
  obtain ⟨f, _, _, h36, heq⟩ :=
    Timeutil.FormatTimeDifference_frac s t hlt (by omega) (by omega)
  have hf := h36 (by omega)
  rw [heq, hf]
  rcases hr with h | h | h <;> rw [h] <;> rfl

/-- C6, amended, on the examples of the claim: `+5.75h`, `-5.75h` and `+5.5h`. -/
theorem FormatTimeDifference_quarter_hours_witness :
    Timeutil.FormatTimeDifference 0 20700 = "+5.75h" ∧
    Timeutil.FormatTimeDifference 20700 0 = "-5.75h" ∧
    Timeutil.FormatTimeDifference 0 19800 = "+5.5h" :=
  ⟨(FormatTimeDifference_quarter_hours 0 20700 (by decide) (by decide) (by decide)).trans
      (by decide),
   (FormatTimeDifference_quarter_hours 20700 0 (by decide) (by decide) (by decide)).trans
      (by decide),
   (FormatTimeDifference_quarter_hours 0 19800 (by decide) (by decide) (by decide)).trans
      (by decide)⟩

/-- C7. `ParseTimeInput` succeeds exactly on the strings `H:MM` and `HH:MM` (one or two
decimal digits, a colon, exactly two decimal digits, nothing else) whose hour is in 0..23
and whose minute is in 0..59, and then returns exactly that hour and minute with a nil
error; on every other string it returns `(0, 0)` with the format error.  `clockSpec` is the
spec-side reading of such strings.  The listed examples are part of the statement. -/
theorem ParseTimeInput_accepts_exactly_clock_strings :
    (∀ s : String, Timeutil.ParseTimeInput s =
      match Spec.clockSpec s.data with
      | some (h, m) => (h, m, none)
      | none => (0, 0, some "invalid time format. Expected HH:MM [24-hour format]")) ∧
    (∀ (s : String) (h m : Int), Spec.clockSpec s.data = some (h, m) →
      0 ≤ h ∧ h ≤ 23 ∧ 0 ≤ m ∧ m ≤ 59) ∧
    Timeutil.ParseTimeInput "9:30" = (9, 30, none) ∧
    Timeutil.ParseTimeInput "09:30" = (9, 30, none) ∧
    Timeutil.ParseTimeInput "23:59" = (23, 59, none) ∧
    Timeutil.ParseTimeInput "00:00" = (0, 0, none) ∧
    (∀ s ∈ ["", "25:00", "ab:cd", "12:60", "12:5", "12:30:00", "12.30", "24:00", " 9:30"],
      Timeutil.ParseTimeInput s
        = (0, 0, some "invalid time format. Expected HH:MM [24-hour format]")) := by
  refine ⟨GoTime.ParseTimeInput_eq, fun s h m hs => GoTime.clockSpec_range s.data h m hs,
    by decide, by decide, by decide, by decide, by decide⟩

/-- C8, counterexample. The first instant of the year 10000 in UTC formats with a
five-digit year, 26 characters in all, which is not of the shape
`YYYY-MM-DDTHH:MM:SS±HH:MM`. -/
theorem FormatISOSeconds_year_10000 :
    Timezone.FormatISOSeconds (GoTime.Date 10000 1 1 0 0 0 0 GoTime.UTC)
      = "10000-01-01T00:00:00+00:00" ∧
    Spec.isISOShape
      (Timezone.FormatISOSeconds (GoTime.Date 10000 1 1 0 0 0 0 GoTime.UTC)).data = false := by
  decide

/-- C8, amended. For every instant whose civil year in its zone is within 0..9999, in a
zone whose offset there is below 100 hours in magnitude, `FormatISOSeconds` returns exactly
the text `YYYY-MM-DDTHH:MM:SS±HH:MM` of the instant's civil fields and offset (sign `-`
from an offset of minus one minute downwards, `+` otherwise, then two-digit offset hours
and minutes).  The text has the spec's shape, does not depend on the nanoseconds (they
are dropped, the seconds are not rounded), contains neither `Z` nor a point, and ends in
`+00:00` when the offset is zero. -/
theorem FormatISOSeconds_exact (t : GoTime.Time) (hy0 : 0 ≤ t.Year) (hy : t.Year ≤ 9999)
    (ho : t.zoneOffset.natAbs < 360000) :
    Timezone.FormatISOSeconds t
      = String.mk (Spec.isoText t.Year.toNat t.Month.toNat t.Day.toNat t.Hour.toNat
          t.Minute.toNat t.Second.toNat (decide (t.zoneOffset ≤ -60))
          (t.zoneOffset.natAbs / 3600) (t.zoneOffset.natAbs / 60 % 60)) ∧
    Spec.isISOShape (Timezone.FormatISOSeconds t).data = true ∧
    (∀ n : Int, Timezone.FormatISOSeconds { t with nsec := n } = Timezone.FormatISOSeconds t) ∧
    'Z' ∉ (Timezone.FormatISOSeconds t).data ∧ '.' ∉ (Timezone.FormatISOSeconds t).data ∧
    (t.zoneOffset = 0 →
      (Timezone.FormatISOSeconds t).data.drop 19 = ['+', '0', '0', ':', '0', '0']) := by
  obtain ⟨m1, m12, d1, d31, h0, h23, mi0, mi59, s0, s59⟩ := GoTime.field_ranges t
  have heq : Timezone.FormatISOSeconds t
      = String.mk (Spec.isoText t.Year.toNat t.Month.toNat t.Day.toNat t.Hour.toNat
          t.Minute.toNat t.Second.toNat (decide (t.zoneOffset ≤ -60))
          (t.zoneOffset.natAbs / 3600) (t.zoneOffset.natAbs / 60 % 60)) := by
    unfold Timezone.FormatISOSeconds GoTime.formatISO
    rw [GoTime.layoutISO_eq _ _ _ _ _ _ _ hy0 hy (by omega) (by omega) (by omega) (by omega)
      h0 (by omega) mi0 (by omega) s0 (by omega) ho]
  refine ⟨heq, ?_, fun n => rfl, ?_, ?_, ?_⟩
  · rw [heq]
    exact GoTime.isoText_shape _ _ _ _ _ _ _ _ _
  · rw [heq]
    have hd : ∀ n, GoStrings.digitChar n ≠ 'Z' := by
      intro n
      unfold GoStrings.digitChar
      split <;> decide
    have hd' : ∀ n, ¬ 'Z' = GoStrings.digitChar n := fun n h => hd n h.symm
    cases hneg : decide (t.zoneOffset ≤ -60) <;>
      simp [Spec.isoText, Spec.twoDigits, hd']
  · rw [heq]
    have hd' : ∀ n, ¬ '.' = GoStrings.digitChar n :=
      fun n h => GoStrings.digitChar_ne_dot n h.symm
    cases hneg : decide (t.zoneOffset ≤ -60) <;>
      simp [Spec.isoText, Spec.twoDigits, hd']
  · intro hz
    rw [heq, hz]
    simp [Spec.isoText, Spec.twoDigits, GoStrings.digitChar_zero]

/-- C8, amended, on 2025-11-09T12:30:45.123456789 in America/New_York. -/
theorem FormatISOSeconds_exact_witness :
    Timezone.FormatISOSeconds (GoTime.Date 2025 11 9 12 30 45 123456789 Sample.newYork)
      = "2025-11-09T12:30:45-05:00" :=
  (FormatISOSeconds_exact (GoTime.Date 2025 11 9 12 30 45 123456789 Sample.newYork)
    (by decide) (by decide) (by decide)).1.trans (by decide)

/-- C9. For every instant `t`, with `offJan` and `offJul` the zone's offsets at local
midnight of January 1 and of July 1 of `t`'s calendar year (the instants `time.Date`
builds for them): `IsDST t` is true exactly when the offset at `t` differs from the lesser
of the two.  Hence `IsDST` is false at every instant of a zone with a constant offset, and
where the two offsets differ it is true at an instant carrying the greater one and false
at an instant carrying the lesser one.  On the zones of 2025: New York and Paris are DST
in July and not in January, Sydney is DST in January and not in July, UTC and Tokyo never. -/
theorem IsDST_iff_offset_differs_from_standard :
    (∀ t : GoTime.Time,
      (Timezone.IsDST t = true ↔
        t.zoneOffset ≠ min (GoTime.Date t.Year 1 1 0 0 0 0 t.loc).zoneOffset
          (GoTime.Date t.Year 7 1 0 0 0 0 t.loc).zoneOffset) ∧
      ((∀ u v : Int, (t.loc.lookup u).offset = (t.loc.lookup v).offset) →
        Timezone.IsDST t = false) ∧
      ((GoTime.Date t.Year 1 1 0 0 0 0 t.loc).zoneOffset
          ≠ (GoTime.Date t.Year 7 1 0 0 0 0 t.loc).zoneOffset →
        (t.zoneOffset = max (GoTime.Date t.Year 1 1 0 0 0 0 t.loc).zoneOffset
            (GoTime.Date t.Year 7 1 0 0 0 0 t.loc).zoneOffset → Timezone.IsDST t = true) ∧
        (t.zoneOffset = min (GoTime.Date t.Year 1 1 0 0 0 0 t.loc).zoneOffset
            (GoTime.Date t.Year 7 1 0 0 0 0 t.loc).zoneOffset → Timezone.IsDST t = false))) ∧
    Timezone.IsDST (GoTime.Date 2025 7 15 12 0 0 0 Sample.newYork) = true ∧
    Timezone.IsDST (GoTime.Date 2025 1 15 12 0 0 0 Sample.newYork) = false ∧
    Timezone.IsDST (GoTime.Date 2025 1 15 12 0 0 0 Sample.sydney) = true ∧
    Timezone.IsDST (GoTime.Date 2025 7 15 12 0 0 0 Sample.sydney) = false ∧
    Timezone.IsDST (GoTime.Date 2025 7 1 12 0 0 0 Sample.paris) = true ∧
    Timezone.IsDST (GoTime.Date 2025 1 1 12 0 0 0 Sample.paris) = false ∧
    Timezone.IsDST (GoTime.Date 2025 7 15 12 0 0 0 GoTime.UTC) = false ∧
    Timezone.IsDST (GoTime.Date 2025 7 15 12 0 0 0 Sample.tokyo) = false := by
  refine ⟨fun t => ?_, by decide, by decide, by decide, by decide, by decide, by decide,
    by decide, by decide⟩
  generalize hjan : (GoTime.Date t.Year 1 1 0 0 0 0 t.loc).zoneOffset = offJan
  generalize hjul : (GoTime.Date t.Year 7 1 0 0 0 0 t.loc).zoneOffset = offJul
  have hiff : Timezone.IsDST t = true ↔ t.zoneOffset ≠ min offJan offJul := by
    unfold Timezone.IsDST
    simp only [hjan, hjul, bne_iff_ne, ne_eq]
    by_cases hlt : offJul < offJan
    · rw [if_pos hlt, min_eq_right (le_of_lt hlt)]
    · rw [if_neg hlt, min_eq_left (not_lt.mp hlt)]
  refine ⟨hiff, ?_, ?_⟩
  · intro hconst
    have h1 : offJan = t.zoneOffset := by
      rw [← hjan]
      exact hconst _ _
    have h2 : offJul = t.zoneOffset := by
      rw [← hjul]
      exact hconst _ _
    rw [Bool.eq_false_iff]
    intro hd
    exact hiff.mp hd (by rw [h1, h2, min_self])
  · intro hne
    constructor
    · intro hmax
      apply hiff.mpr
      rw [hmax]
      intro h
      rcases lt_or_gt_of_ne hne with hl | hl
      · rw [max_eq_right (le_of_lt hl), min_eq_left (le_of_lt hl)] at h
        exact hne h.symm
      · rw [max_eq_left (le_of_lt hl), min_eq_right (le_of_lt hl)] at h
        exact hne h
    · intro hmin
      rw [Bool.eq_false_iff]
      intro hd
      exact hiff.mp hd hmin

/-- C10. Let `z` be a non-empty timezone name (the empty name is the subject of C11), on a
host whose clock, seen in `z`, reads a year within 0..9999 and whose zone offset is below
100 hours.  If `z` loads, `GetCurrentTime` succeeds: the result's `timezone` is `z`
verbatim, its `datetime` is the layout of the current civil fields in `z` and has the shape
`YYYY-MM-DDTHH:MM:SS±HH:MM`, and its `day_of_week` is the English weekday name of the
calendar date shown there.  If `z` does not load, `GetCurrentTime` returns the zero
`TimeResult` and the error `invalid timezone: unknown timezone "z": ...` (the name as `%q`
quotes it, then the loader's own text). -/
theorem GetCurrentTime_valid_or_unknown (w : World) (z : String) (hz : z ≠ "")
    (hclock : ∀ loc, GoTime.LoadLocation w z = .ok loc →
      0 ≤ ((GoTime.Now w).In loc).Year ∧ ((GoTime.Now w).In loc).Year ≤ 9999 ∧
      ((GoTime.Now w).In loc).zoneOffset.natAbs < 360000) :
    (∀ loc, GoTime.LoadLocation w z = .ok loc →
      (Handlers.GetCurrentTime w ⟨z⟩).2 = none ∧
      (Handlers.GetCurrentTime w ⟨z⟩).1.Timezone = z ∧
      (Handlers.GetCurrentTime w ⟨z⟩).1.Datetime
        = String.mk (GoTime.layoutISO ((GoTime.Now w).In loc).Year
            ((GoTime.Now w).In loc).Month ((GoTime.Now w).In loc).Day
            ((GoTime.Now w).In loc).Hour ((GoTime.Now w).In loc).Minute
            ((GoTime.Now w).In loc).Second ((GoTime.Now w).In loc).zoneOffset) ∧
      Spec.isISOShape (Handlers.GetCurrentTime w ⟨z⟩).1.Datetime.data = true ∧
      (Handlers.GetCurrentTime w ⟨z⟩).1.DayOfWeek
        = Spec.weekdayName ((GoTime.Now w).In loc).Year ((GoTime.Now w).In loc).Month
            ((GoTime.Now w).In loc).Day) ∧
    (∀ err, GoTime.LoadLocation w z = .error err →
      Handlers.GetCurrentTime w ⟨z⟩
        = (Types.TimeResult.zero,
            some ("invalid timezone: " ++ ("unknown timezone " ++ w.quote z ++ ": " ++ err)))) := by
  constructor
  · intro loc hload
    obtain ⟨hy0, hy, ho⟩ := hclock loc hload
    generalize hnow : (GoTime.Now w).In loc = now at *
    have hres : Handlers.GetCurrentTime w ⟨z⟩ = (Timeutil.BuildTimeResult now z, none) := by
      simp only [Handlers.GetCurrentTime, Timezone.GetNowInLocation, hz, if_false, hload, hnow]
    rw [hres]
    refine ⟨rfl, rfl, rfl, ?_, ?_⟩
    · exact (FormatISOSeconds_shape_aux now hy0 hy ho)
    · simp only [Timeutil.BuildTimeResult, Spec.weekdayName]
      congr 1
      obtain ⟨_, _, _, _, hsum⟩ := GoTime.absDate_spec now.abs
      have hdays : Spec.daysOfDate now.Year now.Month now.Day = now.abs / 86400 := by
        rw [← hsum, GoTime.daysSinceEpoch_closed]
        simp only [Spec.daysOfDate, GoTime.Time.Year, GoTime.Time.Month, GoTime.Time.Day]
      rw [hdays]
      simp only [GoTime.Time.Weekday]
      omega
  · intro err hload
    simp only [Handlers.GetCurrentTime, Timezone.GetNowInLocation, hz, if_false, hload]

/-- C10 at 2025-03-09T12:00:00Z for Europe/Paris: the zone loads, the clock reads 2025. -/
theorem GetCurrentTime_valid_or_unknown_witness :
    (Handlers.GetCurrentTime Sample.marchWorld ⟨"Europe/Paris"⟩).1
      = ⟨"Europe/Paris", "2025-03-09T13:00:00+01:00", "Sunday", false⟩ ∧
    (Handlers.GetCurrentTime Sample.marchWorld ⟨"Europe/Paris"⟩).1.DayOfWeek
      = Spec.weekdayName 2025 3 9 ∧
    Handlers.GetCurrentTime Sample.marchWorld ⟨"Invalid/Zone"⟩
      = (Types.TimeResult.zero,
          some "invalid timezone: unknown timezone \"Invalid/Zone\": unknown time zone Invalid/Zone") := by
  have hp : GoTime.LoadLocation Sample.marchWorld "Europe/Paris" = .ok Sample.paris := rfl
  have hclock : ∀ loc, GoTime.LoadLocation Sample.marchWorld "Europe/Paris" = .ok loc →
      0 ≤ ((GoTime.Now Sample.marchWorld).In loc).Year ∧
      ((GoTime.Now Sample.marchWorld).In loc).Year ≤ 9999 ∧
      ((GoTime.Now Sample.marchWorld).In loc).zoneOffset.natAbs < 360000 := by
    intro loc h
    rw [hp] at h
    injection h with h
    subst h
    decide
  have hi : GoTime.LoadLocation Sample.marchWorld "Invalid/Zone"
      = .error "unknown time zone Invalid/Zone" := rfl
  have hclock2 : ∀ loc, GoTime.LoadLocation Sample.marchWorld "Invalid/Zone" = .ok loc →
      0 ≤ ((GoTime.Now Sample.marchWorld).In loc).Year ∧
      ((GoTime.Now Sample.marchWorld).In loc).Year ≤ 9999 ∧
      ((GoTime.Now Sample.marchWorld).In loc).zoneOffset.natAbs < 360000 := by
    intro loc h
    rw [hi] at h
    cases h
  have h1 := (GetCurrentTime_valid_or_unknown Sample.marchWorld "Europe/Paris" (by decide)
    hclock).1 Sample.paris hp
  have h2 := (GetCurrentTime_valid_or_unknown Sample.marchWorld "Invalid/Zone" (by decide)
    hclock2).2 _ hi
  exact ⟨by decide, h1.2.2.2.2.trans (by decide), h2.trans (by decide)⟩

/-- C11. At any clock reading, `GetCurrentTime` with the empty timezone returns exactly
what it returns with timezone `"UTC"`: it succeeds, the result is the current time
presented in UTC, and its timezone field is `"UTC"`, not the empty string. -/
theorem GetCurrentTime_empty_is_UTC (w : World) :
    Handlers.GetCurrentTime w ⟨""⟩ = Handlers.GetCurrentTime w ⟨"UTC"⟩ ∧
    (Handlers.GetCurrentTime w ⟨""⟩).2 = none ∧
    (Handlers.GetCurrentTime w ⟨""⟩).1.Timezone = "UTC" ∧
    (Handlers.GetCurrentTime w ⟨""⟩).1
      = Timeutil.BuildTimeResult ((GoTime.Now w).In GoTime.UTC) "UTC" := by
  have hutc : GoTime.LoadLocation w "UTC" = .ok GoTime.UTC := by
    simp [GoTime.LoadLocation]
  have hne : ("UTC" : String) ≠ "" := by decide
  have h2 : Handlers.GetCurrentTime w ⟨"UTC"⟩
      = (Timeutil.BuildTimeResult ((GoTime.Now w).In GoTime.UTC) "UTC", none) := by
    simp only [Handlers.GetCurrentTime, Timezone.GetNowInLocation, hne, if_false, hutc]
  have h1 : Handlers.GetCurrentTime w ⟨""⟩
      = (Timeutil.BuildTimeResult ((GoTime.Now w).In GoTime.UTC) "UTC", none) := by
    simp only [Handlers.GetCurrentTime, Timezone.GetNowInLocation, hne, if_true, if_false,
      hutc]
  rw [h1, h2]
  exact ⟨rfl, rfl, rfl, rfl⟩

/-- C12, counterexample. On the sample host at 2025-03-09T12:00:00Z the name
`"Invalid/Zone"` is not empty and does not load, yet `ConvertTimeString` converts the
RFC3339 timestamp `"2025-11-09T12:00:00Z"` with that `fromTZ` to Europe/Paris without an
error: the result reads `2025-11-09T13:00:00+01:00`. -/
theorem ConvertTimeString_offset_ignores_fromTZ :
    GoTime.LoadLocation Sample.marchWorld "Invalid/Zone"
      = .error "unknown time zone Invalid/Zone" ∧
    (Timezone.ConvertTimeString Sample.marchWorld "2025-11-09T12:00:00Z" "Invalid/Zone"
      "Europe/Paris").2 = none ∧
    Timezone.FormatISOSeconds (Timezone.ConvertTimeString Sample.marchWorld
      "2025-11-09T12:00:00Z" "Invalid/Zone" "Europe/Paris").1
      = "2025-11-09T13:00:00+01:00" := by
  refine ⟨rfl, by decide, by decide⟩

/-- C12, amended. `ConvertTimeString` fails exactly in these cases, each with the zero
time: (a) `tstr` is empty (`time string is empty`); (b) `tstr` parses neither as RFC3339
nor as `2006-01-02 15:04:05` (`unable to parse time`); (c) `tstr` parses only as the naive
layout and `fromTZ` does not load (`invalid from timezone`; the empty `fromTZ` loads as
UTC); (d) `tstr` parses, `fromTZ` is not in the way, and `toTZ` does not load
(`invalid to timezone`).  When `tstr` parses as RFC3339, `fromTZ` is never looked at:
the outcome depends on `toTZ` alone.  In every other case the call succeeds. -/
theorem ConvertTimeString_failures (w : World) (tstr fromTZ toTZ : String) :
    (tstr = "" →
      Timezone.ConvertTimeString w tstr fromTZ toTZ
        = (GoTime.Time.zero, some "time string is empty")) ∧
    (tstr ≠ "" → GoTime.Parse w true tstr.data = none →
      GoTime.Parse w false tstr.data = none →
      Timezone.ConvertTimeString w tstr fromTZ toTZ
        = (GoTime.Time.zero, some ("unable to parse time " ++ w.quote tstr ++ ": "
            ++ w.parseErrorText "2006-01-02 15:04:05" tstr))) ∧
    (∀ p err, tstr ≠ "" → GoTime.Parse w true tstr.data = some p →
      GoTime.LoadLocation w toTZ = .error err →
      Timezone.ConvertTimeString w tstr fromTZ toTZ
        = (GoTime.Time.zero, some ("invalid to timezone " ++ w.quote toTZ ++ ": " ++ err))) ∧
    (∀ p locTo, tstr ≠ "" → GoTime.Parse w true tstr.data = some p →
      GoTime.LoadLocation w toTZ = .ok locTo →
      Timezone.ConvertTimeString w tstr fromTZ toTZ = (p.In locTo, none)) ∧
    (∀ p err, tstr ≠ "" → GoTime.Parse w true tstr.data = none →
      GoTime.Parse w false tstr.data = some p →
      GoTime.LoadLocation w fromTZ = .error err →
      fromTZ ≠ "" ∧
      Timezone.ConvertTimeString w tstr fromTZ toTZ
        = (GoTime.Time.zero,
            some ("invalid from timezone " ++ w.quote fromTZ ++ ": " ++ err))) ∧
    (∀ p locFrom err, tstr ≠ "" → GoTime.Parse w true tstr.data = none →
      GoTime.Parse w false tstr.data = some p →
      GoTime.LoadLocation w fromTZ = .ok locFrom →
      GoTime.LoadLocation w toTZ = .error err →
      Timezone.ConvertTimeString w tstr fromTZ toTZ
        = (GoTime.Time.zero, some ("invalid to timezone " ++ w.quote toTZ ++ ": " ++ err))) ∧
    (∀ p locFrom locTo, tstr ≠ "" → GoTime.Parse w true tstr.data = none →
      GoTime.Parse w false tstr.data = some p →
      GoTime.LoadLocation w fromTZ = .ok locFrom →
      GoTime.LoadLocation w toTZ = .ok locTo →
      Timezone.ConvertTimeString w tstr fromTZ toTZ
        = ((GoTime.Date p.Year p.Month p.Day p.Hour p.Minute p.Second p.Nanosecond
            locFrom).In locTo, none)) := by
  have hempty : GoTime.LoadLocation w "" = .ok GoTime.UTC := by
    simp [GoTime.LoadLocation]
  refine ⟨?_, ?_, ?_, ?_, ?_, ?_, ?_⟩
  · intro h
    simp [Timezone.ConvertTimeString, h]
  · intro h h1 h2
    simp only [Timezone.ConvertTimeString, h, if_false, h1, h2]
  · intro p err h h1 hto
    simp only [Timezone.ConvertTimeString, Timezone.convertTail, h, if_false, h1, hto]
  · intro p locTo h h1 hto
    simp only [Timezone.ConvertTimeString, Timezone.convertTail, h, if_false, h1, hto]
  · intro p err h h1 h2 hfrom
    have hne : fromTZ ≠ "" := by
      intro he
      rw [he, hempty] at hfrom
      cases hfrom
    refine ⟨hne, ?_⟩
    simp only [Timezone.ConvertTimeString, h, if_false, h1, h2, hne, hfrom]
  · intro p locFrom err h h1 h2 hfrom hto
    by_cases he : fromTZ = ""
    · simp only [Timezone.ConvertTimeString, Timezone.convertTail, h, if_false, h1, h2, he,
        if_true, hto]
    · simp only [Timezone.ConvertTimeString, Timezone.convertTail, h, if_false, h1, h2, he,
        hfrom, hto]
  · intro p locFrom locTo h h1 h2 hfrom hto
    by_cases he : fromTZ = ""
    · have hu : locFrom = GoTime.UTC := by
        rw [he, hempty] at hfrom
        injection hfrom with hfrom
        exact hfrom.symm
      simp only [Timezone.ConvertTimeString, Timezone.convertTail, h, if_false, h1, h2, he,
        if_true, hto, hu]
    · simp only [Timezone.ConvertTimeString, Timezone.convertTail, h, if_false, h1, h2, he,
        hfrom, hto]

/-- C12 on the sample host: the naive `"2025-11-09 12:00:00"` with `fromTZ`
`"Invalid/TZ"` fails on the source zone, and the RFC3339 `"2025-11-09T12:00:00Z"` with
`toTZ` `"Invalid/TZ"` fails on the destination zone. -/
theorem ConvertTimeString_failures_witness :
    ("Invalid/TZ" ≠ "" ∧
      Timezone.ConvertTimeString Sample.marchWorld "2025-11-09 12:00:00" "Invalid/TZ" "UTC"
        = (GoTime.Time.zero,
            some "invalid from timezone \"Invalid/TZ\": unknown time zone Invalid/TZ")) ∧
    Timezone.ConvertTimeString Sample.marchWorld "2025-11-09T12:00:00Z" "" "Invalid/TZ"
      = (GoTime.Time.zero,
          some "invalid to timezone \"Invalid/TZ\": unknown time zone Invalid/TZ") :=
  ⟨(ConvertTimeString_failures Sample.marchWorld "2025-11-09 12:00:00" "Invalid/TZ"
      "UTC").2.2.2.2.1 (GoTime.Date 2025 11 9 12 0 0 0 GoTime.UTC)
      "unknown time zone Invalid/TZ" (by decide) rfl rfl rfl,
   (ConvertTimeString_failures Sample.marchWorld "2025-11-09T12:00:00Z" ""
      "Invalid/TZ").2.2.1 (GoTime.Date 2025 11 9 12 0 0 0 GoTime.UTC)
      "unknown time zone Invalid/TZ" (by decide) rfl rfl⟩

/-- C13. `ConvertTimeString` preserves the absolute instant and so round-trips exactly.
Let zones `A` and `B` load, let `s1` be a fully-qualified (RFC3339) timestamp of the
instant `t`, and let `s2` be a fully-qualified timestamp of what converting `s1` to `B`
returns.  Then converting `s1` to `B` succeeds with the instant `t` presented in `B`, and
converting `s2` back to `A` succeeds with exactly `t` presented in `A`: the same second
and nanosecond, hence the same civil date and time, weekday and rendering as `t` has in
`A`.  The `fromTZ` arguments play no part.  The repository's own `FormatISOSeconds`
renders such an `s2` whenever `t` is a whole second whose year in `B` has four digits and
whose offset in `B` is a whole number of minutes below 25 hours. -/
theorem ConvertTimeString_round_trip (w : World) (t : GoTime.Time)
    (s1 s2 zoneA zoneB from1 from2 : String) (locA locB : GoTime.Location)
    (hA : GoTime.LoadLocation w zoneA = .ok locA)
    (hB : GoTime.LoadLocation w zoneB = .ok locB)
    (h1 : Spec.isTimestampOf w s1 t = true)
    (h2 : Spec.isTimestampOf w s2 (Timezone.ConvertTimeString w s1 from1 zoneB).1 = true) :
    Timezone.ConvertTimeString w s1 from1 zoneB = (t.In locB, none) ∧
    Timezone.ConvertTimeString w s2 from2 zoneA = (t.In locA, none) ∧
    (Timezone.ConvertTimeString w s2 from2 zoneA).1.sec = t.sec ∧
    (Timezone.ConvertTimeString w s2 from2 zoneA).1.nsec = t.nsec ∧
    Timezone.FormatISOSeconds (Timezone.ConvertTimeString w s2 from2 zoneA).1
      = Timezone.FormatISOSeconds (t.In locA) ∧
    (Timezone.ConvertTimeString w s2 from2 zoneA).1.Weekday = (t.In locA).Weekday ∧
    (t.nsec = 0 → 0 ≤ (t.In locB).Year → (t.In locB).Year ≤ 9999 →
      (t.In locB).zoneOffset % 60 = 0 → (t.In locB).zoneOffset.natAbs < 90000 →
      Spec.isTimestampOf w
        (Timezone.FormatISOSeconds (Timezone.ConvertTimeString w s1 from1 zoneB).1)
        (Timezone.ConvertTimeString w s1 from1 zoneB).1 = true) := by
  have key : ∀ (s f zone : String) (u : GoTime.Time) (loc : GoTime.Location),
      GoTime.LoadLocation w zone = .ok loc → Spec.isTimestampOf w s u = true →
      Timezone.ConvertTimeString w s f zone = (u.In loc, none) := by
    intro s f zone u loc hl hs
    unfold Spec.isTimestampOf at hs
    have hne : s ≠ "" := by
      intro he
      rw [he] at hs
      have hnil : GoTime.Parse w true "".data = none := rfl
      rw [hnil] at hs
      exact Bool.noConfusion hs
    cases hp : GoTime.Parse w true s.data with
    | none =>
      rw [hp] at hs
      exact Bool.noConfusion hs
    | some p =>
      rw [hp] at hs
      simp only [Bool.and_eq_true, decide_eq_true_eq] at hs
      simp only [Timezone.ConvertTimeString, Timezone.convertTail, hne, if_false, hp, hl,
        GoTime.Time.In, hs.1, hs.2]
  have e1 := key s1 from1 zoneB t locB hB h1
  rw [e1] at h2
  have e2 : Timezone.ConvertTimeString w s2 from2 zoneA = (t.In locA, none) :=
    key s2 from2 zoneA (t.In locB) locA hA h2
  rw [e2, e1]
  exact ⟨rfl, rfl, rfl, rfl, rfl, rfl, fun hn hy0 hy hm ho =>
    GoTime.isTimestampOf_FormatISOSeconds w (t.In locB) hy0 hy hm ho hn⟩

/-- C13 on the sample host for the instant 2025-11-09T12:00:00Z, from America/New_York
to Europe/Paris and back: `"2025-11-09T13:00:00+01:00"` is what `FormatISOSeconds` makes
of the first conversion, and the trip ends at 07:00 in New York. -/
theorem ConvertTimeString_round_trip_witness :
    Timezone.FormatISOSeconds (Timezone.ConvertTimeString Sample.marchWorld
      "2025-11-09T12:00:00Z" "" "Europe/Paris").1 = "2025-11-09T13:00:00+01:00" ∧
    Timezone.ConvertTimeString Sample.marchWorld "2025-11-09T13:00:00+01:00" ""
      "America/New_York" = ((GoTime.Time.mk 1762689600 0 GoTime.UTC).In Sample.newYork, none) ∧
    Timezone.FormatISOSeconds (Timezone.ConvertTimeString Sample.marchWorld
      "2025-11-09T13:00:00+01:00" "" "America/New_York").1 = "2025-11-09T07:00:00-05:00" :=
  ⟨by decide,
   (ConvertTimeString_round_trip Sample.marchWorld (GoTime.Time.mk 1762689600 0 GoTime.UTC)
      "2025-11-09T12:00:00Z" "2025-11-09T13:00:00+01:00" "America/New_York" "Europe/Paris"
      "" "" Sample.newYork Sample.paris rfl rfl (by decide) (by decide)).2.1,
   by decide⟩

/-- C14. On a host whose `time.Local` carries a name (the Go runtime names it `"Local"`,
`"UTC"` or the zone it loaded from `TZ`, never the empty string), `GetLocalTimezone`
never returns the empty string: it returns the override verbatim when the override is
not empty, and otherwise the host's zone name, with `"UTC"` in place of the generic label
`"Local"`. -/
theorem GetLocalTimezone_never_empty (w : World) (override : String)
    (hlabel : w.localLoc.name ≠ "") :
    Timezone.GetLocalTimezone w override ≠ "" ∧
    (override ≠ "" → Timezone.GetLocalTimezone w override = override) ∧
    (override = "" → w.localLoc.name = "Local" →
      Timezone.GetLocalTimezone w override = "UTC") ∧
    (override = "" → w.localLoc.name ≠ "Local" →
      Timezone.GetLocalTimezone w override = w.localLoc.name) := by
  unfold Timezone.GetLocalTimezone
  refine ⟨?_, ?_, ?_, ?_⟩
  · by_cases ho : override = ""
    · by_cases hl : w.localLoc.name = "Local"
      · simp [ho, hl]
      · simp [ho, hl, hlabel]
    · simp [ho]
  · intro ho
    simp [ho]
  · intro ho hl
    simp [ho, hl]
  · intro ho hl
    simp [ho, hl]

/-- C14 on the sample host, whose local zone is named `"UTC"`, with and without an
override. -/
theorem GetLocalTimezone_never_empty_witness :
    Timezone.GetLocalTimezone Sample.marchWorld "" = "UTC" ∧
    Timezone.GetLocalTimezone Sample.marchWorld "America/New_York" = "America/New_York" :=
  ⟨((GetLocalTimezone_never_empty Sample.marchWorld "" (by decide)).2.2.2 rfl
      (by decide)).trans rfl,
   (GetLocalTimezone_never_empty Sample.marchWorld "America/New_York" (by decide)).2.1
      (by decide)⟩

/-- C15. `ConvertTime` and `GetCurrentTime` never crash: for every input `ConvertTime`
returns (it never reaches `time.Date` with a missing location), and each handler
returns either a result with a nil error or the zero result with an error.  In
particular, whenever `GetNowInLocation` has resolved the non-empty source name, the
second `LoadLocation` of that name succeeds as well. -/
theorem handlers_never_crash (w : World) :
    (∀ input : Types.ConvertTimeInput,
      ∃ r e, Handlers.ConvertTime w input = some (r, e) ∧
        (e = none ∨ (r = Types.TimeConversionResult.zero ∧ e ≠ none))) ∧
    (∀ input : Types.GetCurrentTimeInput,
      (Handlers.GetCurrentTime w input).2 = none ∨
      ((Handlers.GetCurrentTime w input).1 = Types.TimeResult.zero ∧
        (Handlers.GetCurrentTime w input).2 ≠ none)) ∧
    (∀ (name : String) (now : GoTime.Time), name ≠ "" →
      Timezone.GetNowInLocation w name = (now, none) →
      ∃ loc, GoTime.LoadLocation w name = .ok loc) := by
  refine ⟨fun input => ?_, fun input => ?_, fun name now hne hnow => ?_⟩
  · rw [Handlers.ConvertTime_cases]
    split
    · exact ⟨_, _, rfl, Or.inr ⟨rfl, by simp⟩⟩
    split
    · exact ⟨_, _, rfl, Or.inr ⟨rfl, by simp⟩⟩
    split
    · exact ⟨_, _, rfl, Or.inr ⟨rfl, by simp⟩⟩
    split
    · exact ⟨_, _, rfl, Or.inr ⟨rfl, by simp⟩⟩
    split
    · exact ⟨_, _, rfl, Or.inr ⟨rfl, by simp⟩⟩
    split
    · exact ⟨_, _, rfl, Or.inr ⟨rfl, by simp⟩⟩
    · exact ⟨_, _, rfl, Or.inl rfl⟩
  · unfold Handlers.GetCurrentTime
    simp only []
    rcases Timezone.GetNowInLocation w (if input.Timezone = "" then "UTC" else input.Timezone)
      with ⟨now, _ | err⟩
    · exact Or.inl rfl
    · exact Or.inr ⟨rfl, by simp⟩
  · unfold Timezone.GetNowInLocation at hnow
    simp only [hne, if_false] at hnow
    cases hl : GoTime.LoadLocation w name with
    | error err =>
      rw [hl] at hnow
      simp at hnow
    | ok loc => exact ⟨loc, rfl⟩

/-- C15 on the sample host: `GetNowInLocation` resolves `"Europe/Paris"`, so the second
lookup of that name succeeds, and `ConvertTime` returns on a request with a bad time. -/
theorem handlers_never_crash_witness :
    (∃ loc, GoTime.LoadLocation Sample.marchWorld "Europe/Paris" = .ok loc) ∧
    (∃ r e, Handlers.ConvertTime Sample.marchWorld ⟨"Europe/Paris", "25:00", "Nowhere"⟩
        = some (r, e) ∧ (e = none ∨ (r = Types.TimeConversionResult.zero ∧ e ≠ none))) :=
  ⟨(handlers_never_crash Sample.marchWorld).2.2 "Europe/Paris"
      ((GoTime.Now Sample.marchWorld).In Sample.paris) (by decide) rfl,
   (handlers_never_crash Sample.marchWorld).1 ⟨"Europe/Paris", "25:00", "Nowhere"⟩⟩

/-- C16. `ConvertTime` reads the clock only through the calendar date it shows in the
source zone: for every input and every second clock reading that shows, in the source
zone, the same year, month and day as the first, `ConvertTime` returns the same output
(same `Source`, `Target` and `TimeDifference`, or the same error).  When the source zone
does not load, the clock is not read at all. -/
theorem ConvertTime_depends_on_source_date (w : World) (input : Types.ConvertTimeInput)
    (sec nsec : Int)
    (hdate : ∀ loc, GoTime.LoadLocation w input.SourceTimezone = .ok loc →
      (GoTime.Time.mk sec nsec loc).Year = ((GoTime.Now w).In loc).Year ∧
      (GoTime.Time.mk sec nsec loc).Month = ((GoTime.Now w).In loc).Month ∧
      (GoTime.Time.mk sec nsec loc).Day = ((GoTime.Now w).In loc).Day) :
    Handlers.ConvertTime { w with nowSec := sec, nowNsec := nsec } input
      = Handlers.ConvertTime w input := by
  have hload : ∀ name, GoTime.LoadLocation { w with nowSec := sec, nowNsec := nsec } name
      = GoTime.LoadLocation w name := fun _ => rfl
  rw [Handlers.ConvertTime_cases, Handlers.ConvertTime_cases]
  simp only [hload]
  split
  · rfl
  split
  · rfl
  split
  · rfl
  split
  · rfl
  split
  · rfl
  rename_i locFrom hFrom
  split
  · rfl
  obtain ⟨hy, hm, hd⟩ := hdate locFrom hFrom
  have hy' : ((GoTime.Now { w with nowSec := sec, nowNsec := nsec }).In locFrom).Year
      = ((GoTime.Now w).In locFrom).Year := hy
  have hm' : ((GoTime.Now { w with nowSec := sec, nowNsec := nsec }).In locFrom).Month
      = ((GoTime.Now w).In locFrom).Month := hm
  have hd' : ((GoTime.Now { w with nowSec := sec, nowNsec := nsec }).In locFrom).Day
      = ((GoTime.Now w).In locFrom).Day := hd
  simp only [hy', hm', hd']

/-- C16 at 12:00Z and at 03:17:05.5Z of 2025-03-09, both 2025-03-09 in Asia/Kathmandu. -/
theorem ConvertTime_depends_on_source_date_witness :
    Handlers.ConvertTime { Sample.marchWorld with nowSec := 1741490225, nowNsec := 500000000 }
        ⟨"Asia/Kathmandu", "9:30", "America/New_York"⟩
      = Handlers.ConvertTime Sample.marchWorld ⟨"Asia/Kathmandu", "9:30", "America/New_York"⟩ :=
  ConvertTime_depends_on_source_date Sample.marchWorld
    ⟨"Asia/Kathmandu", "9:30", "America/New_York"⟩ 1741490225 500000000
    (by
      intro loc h
      have hk : GoTime.LoadLocation Sample.marchWorld "Asia/Kathmandu" = .ok Sample.kathmandu :=
        rfl
      rw [show (⟨"Asia/Kathmandu", "9:30", "America/New_York"⟩ :
        Types.ConvertTimeInput).SourceTimezone = "Asia/Kathmandu" from rfl, hk] at h
      injection h with h
      subst h
      decide)

/-- C17. For every non-empty zone name `z` that loads and every clock string (`H:MM` or
`HH:MM`, hour 0..23, minute 0..59), `ConvertTime` from `z` to `z` succeeds with `Target`
equal to `Source` (same timezone, datetime, day of week and DST flag) and a
`TimeDifference` of exactly `"+0.0h"`. -/
theorem ConvertTime_same_zone (w : World) (z time : String) (loc : GoTime.Location)
    (hz : z ≠ "") (hload : GoTime.LoadLocation w z = .ok loc)
    (hclock : Spec.clockSpec time.data ≠ none) :
    ∃ r, Handlers.ConvertTime w ⟨z, time, z⟩ = some (r, none) ∧
      r.Target = r.Source ∧ r.Source.Timezone = z ∧ r.TimeDifference = "+0.0h" := by
  obtain ⟨p, hp⟩ := Option.ne_none_iff_exists'.mp hclock
  have htime : time ≠ "" := by
    intro h
    rw [h] at hp
    simp [Spec.clockSpec] at hp
  rw [Handlers.ConvertTime_cases]
  simp only [hz, htime, if_false, hp, hload]
  refine ⟨_, rfl, ?_, rfl, ?_⟩
  · simp only [GoTime.Time.In]
    rfl
  · simp only [GoTime.Time.In, GoTime.Time.zoneOffset, GoTime.Date_loc]
    exact Timeutil.FormatTimeDifference_zero _

/-- C17 at 2025-03-09T12:00:00Z: "9:30" from Europe/Paris to Europe/Paris. -/
theorem ConvertTime_same_zone_witness :
    ∃ r, Handlers.ConvertTime Sample.marchWorld ⟨"Europe/Paris", "9:30", "Europe/Paris"⟩
        = some (r, none) ∧
      r.Target = r.Source ∧ r.Source.Timezone = "Europe/Paris" ∧ r.TimeDifference = "+0.0h" :=
  ConvertTime_same_zone Sample.marchWorld "Europe/Paris" "9:30" Sample.paris (by decide) rfl
    (by decide)
